import Mathlib

/-!
Verification of the Caixa real-estate scraper (`script.py`, `parser.py`).

Strings are modelled as `List Char` (`PyStr`).  Python string methods
(`strip`, `upper`, `lower`, `split`, `in`, `startswith`, `replace`, `int()`)
are embedded as executable functions below.  Regular expressions are embedded
through a small backtracking engine (`RE`, `reM`) whose alternative/greedy
priority order mirrors Python's `re` backtracking, so that `re.search`,
`re.sub` and `re.findall` on the concrete patterns of the source behave
identically.  Case folding covers ASCII plus the accented characters that
occur in the source's patterns and data.
-/

set_option maxRecDepth 100000

/-- Python strings, as lists of characters. -/
abbrev PyStr := List Char

/-- Python `\s` / `str.strip` whitespace (ASCII part of Python's notion). -/
def isWS (c : Char) : Bool :=
  c = ' ' || c = '\t' || c = '\n' || c = '\r' || c = '\x0b' || c = '\x0c'

/-- ASCII letter test: the characters matched by `[A-Z]` under `re.IGNORECASE`
(Python makes `[A-Z]` match both cases when `IGNORECASE` is set, hence
`[^A-Z]` rejects both cases). -/
def isAsciiLetter (c : Char) : Bool :=
  ('A' ≤ c && c ≤ 'Z') || ('a' ≤ c && c ≤ 'z')

/-- Embeds `str.lower` on one character: ASCII plus the accented letters appearing in
the source (`Ç Á À Â Ã É Ê Í Ó Ô Õ Ú Ü`). -/
def lowC (c : Char) : Char :=
  if 'A' ≤ c && c ≤ 'Z' then Char.ofNat (c.toNat + 32)
  else if c = 'Ç' then 'ç'
  else if c = 'Á' then 'á'
  else if c = 'À' then 'à'
  else if c = 'Â' then 'â'
  else if c = 'Ã' then 'ã'
  else if c = 'É' then 'é'
  else if c = 'Ê' then 'ê'
  else if c = 'Í' then 'í'
  else if c = 'Ó' then 'ó'
  else if c = 'Ô' then 'ô'
  else if c = 'Õ' then 'õ'
  else if c = 'Ú' then 'ú'
  else if c = 'Ü' then 'ü'
  else c

/-- Embeds `str.upper` on one character (inverse table of `lowC`). -/
def uppC (c : Char) : Char :=
  if 'a' ≤ c && c ≤ 'z' then Char.ofNat (c.toNat - 32)
  else if c = 'ç' then 'Ç'
  else if c = 'á' then 'Á'
  else if c = 'à' then 'À'
  else if c = 'â' then 'Â'
  else if c = 'ã' then 'Ã'
  else if c = 'é' then 'É'
  else if c = 'ê' then 'Ê'
  else if c = 'í' then 'Í'
  else if c = 'ó' then 'Ó'
  else if c = 'ô' then 'Ô'
  else if c = 'õ' then 'Õ'
  else if c = 'ú' then 'Ú'
  else if c = 'ü' then 'Ü'
  else c

/-- Embeds `str.lower`. -/
def pyLower (s : PyStr) : PyStr := s.map lowC

/-- Embeds `str.upper`. -/
def pyUpper (s : PyStr) : PyStr := s.map uppC

/-- Letters recognised by Python's `str.isalpha` that occur in this codebase's
data: ASCII letters plus the accented letters above (both cases). -/
def isAlphaPy (c : Char) : Bool :=
  isAsciiLetter c || isAsciiLetter (uppC c) || isAsciiLetter (lowC c) ||
  c = 'Ç' || c = 'ç' || c = 'Á' || c = 'á' || c = 'À' || c = 'à' ||
  c = 'Â' || c = 'â' || c = 'Ã' || c = 'ã' || c = 'É' || c = 'é' ||
  c = 'Ê' || c = 'ê' || c = 'Í' || c = 'í' || c = 'Ó' || c = 'ó' ||
  c = 'Ô' || c = 'ô' || c = 'Õ' || c = 'õ' || c = 'Ú' || c = 'ú' ||
  c = 'Ü' || c = 'ü'

/-- Python `s.isalpha()`: non-empty and all alphabetic. -/
def pyIsAlpha (s : PyStr) : Bool := !s.isEmpty && s.all isAlphaPy

/-- Drop a maximal whitespace suffix (helper for `pyStrip`). -/
def dropTrailWS : PyStr → PyStr
  | [] => []
  | c :: rest =>
    let r := dropTrailWS rest
    if r.isEmpty && isWS c then [] else c :: r

/-- Python `str.strip()`. -/
def pyStrip (s : PyStr) : PyStr := dropTrailWS (s.dropWhile isWS)

/-- Helper for `subWS`: `inRun` records whether the previous character was
whitespace (in which case the current run's single `' '` was already
emitted). -/
def subWSAux (inRun : Bool) : PyStr → PyStr
  | [] => []
  | c :: rest =>
    if isWS c then
      if inRun then subWSAux true rest else ' ' :: subWSAux true rest
    else c :: subWSAux false rest

/-- Embeds `re.sub(r"\s+", " ", s)`: replace every maximal whitespace run by a single
space. -/
def subWS (s : PyStr) : PyStr := subWSAux false s

/-- Embeds `l₂` starts with `l₁` (Python `str.startswith`). -/
def isPre : PyStr → PyStr → Bool
  | [], _ => true
  | _ :: _, [] => false
  | a :: as, b :: bs => a = b && isPre as bs

/-- Python `needle in hay` (contiguous substring test). -/
def hasSub (hay needle : PyStr) : Bool :=
  if isPre needle hay then true
  else
    match hay with
    | [] => false
    | _ :: t => hasSub t needle

/-- Python `hay.find(needle)`: index of the leftmost occurrence. -/
def findSub (hay needle : PyStr) : Option Nat :=
  if isPre needle hay then some 0
  else
    match hay with
    | [] => none
    | _ :: t => (findSub t needle).map (· + 1)

/-- Python `s.split(sep)` for a one-character separator. -/
def splitOnChar (sep : Char) : PyStr → List PyStr
  | [] => [[]]
  | c :: rest =>
    match splitOnChar sep rest with
    | [] => [[]]
    | h :: t => if c = sep then [] :: h :: t else (c :: h) :: t

/-- Fuel-driven worker for `splitOnStr` (fuel bounds the number of separator
hits; `l.length` is always enough since the separator is non-empty). -/
def splitOnStrAux (sep : PyStr) : Nat → PyStr → List PyStr
  | 0, l => [l]
  | fuel + 1, l =>
    if !sep.isEmpty && isPre sep l then [] :: splitOnStrAux sep fuel (l.drop sep.length)
    else
      match l with
      | [] => [[]]
      | c :: rest =>
        match splitOnStrAux sep fuel rest with
        | [] => [[]]
        | h :: t => (c :: h) :: t

/-- Python `s.split(sep)` for a multi-character separator (leftmost,
non-overlapping occurrences). -/
def splitOnStr (sep : PyStr) (l : PyStr) : List PyStr := splitOnStrAux sep l.length l

/-- Fuel-driven worker for `removeAllSub`. -/
def removeAllSubAux (pat : PyStr) : Nat → PyStr → PyStr
  | 0, l => l
  | fuel + 1, l =>
    if !pat.isEmpty && isPre pat l then removeAllSubAux pat fuel (l.drop pat.length)
    else
      match l with
      | [] => []
      | c :: rest => c :: removeAllSubAux pat fuel rest

/-- Python `s.replace(pat, "")`: remove all occurrences of `pat`
(left-to-right, non-overlapping). -/
def removeAllSub (pat : PyStr) (l : PyStr) : PyStr := removeAllSubAux pat l.length l

/-- Embeds `sep.join(parts)`. -/
def joinWith (sep : PyStr) : List PyStr → PyStr
  | [] => []
  | [x] => x
  | x :: y :: rest => x ++ sep ++ joinWith sep (y :: rest)

/-- Digits of a decimal numeral; `none` when empty or a non-digit occurs. -/
def digitsToNat : PyStr → Option Nat
  | [] => none
  | l => go l 0
where
  go : PyStr → Nat → Option Nat
    | [], acc => some acc
    | c :: rest, acc =>
      if c.isDigit then go rest (acc * 10 + (c.toNat - '0'.toNat))
      else none

/-- Python `int(s)`: surrounding whitespace allowed, optional sign, decimal
digits; `none` models `ValueError`. -/
def pyInt (s : PyStr) : Option Int :=
  match pyStrip s with
  | '+' :: ds => (digitsToNat ds).map Int.ofNat
  | '-' :: ds => (digitsToNat ds).map (fun n => -(n : Int))
  | ds => (digitsToNat ds).map Int.ofNat

/-- Slice `[a, b)` of a string by absolute positions. -/
def sliceAbs (s : PyStr) (sp : Nat × Nat) : PyStr := (s.drop sp.1).take (sp.2 - sp.1)

/-!  ## A small regex engine

`RE` is the abstract syntax of the concrete patterns used by the source.
`reM` enumerates, in Python-`re` backtracking priority order (alternatives
left first, greedy quantifiers longest first, lazy shortest first), the
possible matches of a pattern at the head of a string, as pairs
`(consumed characters, captured group spans)`.  The head of that list is the
match Python's engine commits to.  Spans are absolute `(group, start, stop)`
positions into the subject string; later captures are listed first so that
lookup by group index sees the most recent assignment, as in Python.

Quantifier bodies in all of the source's patterns consume at least one
character, so a fuel of `length + 1` makes the fuel bound unreachable. -/

/-- Capture records: (group index, start, stop), most recent first. -/
abbrev Caps := List (Nat × Nat × Nat)

/-- Match alternatives: (characters consumed, captures), best first. -/
abbrev MOpt := List (Nat × Caps)

/-- Regex abstract syntax.  `ePy` is Python's `$` (end of subject, or just
before a final newline).  `cls` is a character class, `rep` a greedy
`{lo,hi}` counted repetition, `star true` a lazy `*?`. -/
inductive RE where
  | eps : RE
  | cls (p : Char → Bool) : RE
  | seq (a b : RE) : RE
  | alt (a b : RE) : RE
  | star (a : RE) (lz : Bool) : RE
  | rep (a : RE) (lo hi : Nat) : RE
  | grp (i : Nat) (a : RE) : RE
  | ePy : RE

/-- One level of the matcher: `rec` is used to continue unrolled quantifiers
(one unit of fuel lower). -/
def reMWith (rec : RE → PyStr → Nat → MOpt) : RE → PyStr → Nat → MOpt
  | .eps, _, _ => [(0, [])]
  | .cls q, s, _ =>
    match s with
    | [] => []
    | c :: _ => if q c then [(1, [])] else []
  | .seq a b, s, p =>
    (reMWith rec a s p).flatMap (fun nc =>
      (reMWith rec b (s.drop nc.1) (p + nc.1)).map (fun mc => (nc.1 + mc.1, mc.2 ++ nc.2)))
  | .alt a b, s, p => reMWith rec a s p ++ reMWith rec b s p
  | .star a lz, s, p =>
    let more := ((reMWith rec a s p).filter (fun nc => 0 < nc.1)).flatMap (fun nc =>
      (rec (.star a lz) (s.drop nc.1) (p + nc.1)).map (fun mc => (nc.1 + mc.1, mc.2 ++ nc.2)))
    if lz then (0, []) :: more else more ++ [(0, [])]
  | .rep a lo hi, s, p =>
    if hi = 0 then (if lo = 0 then [(0, [])] else [])
    else
      let more := ((reMWith rec a s p).filter (fun nc => 0 < nc.1)).flatMap (fun nc =>
        (rec (.rep a (lo - 1) (hi - 1)) (s.drop nc.1) (p + nc.1)).map
          (fun mc => (nc.1 + mc.1, mc.2 ++ nc.2)))
      if lo = 0 then more ++ [(0, [])] else more
  | .grp i a, s, p => (reMWith rec a s p).map (fun nc => (nc.1, (i, p, p + nc.1) :: nc.2))
  | .ePy, s, _ =>
    match s with
    | [] => [(0, [])]
    | ['\n'] => [(0, [])]
    | _ => []

/-- Fuel-indexed matcher.  At fuel 0 quantifiers may no longer unroll. -/
def reM : Nat → RE → PyStr → Nat → MOpt
  | 0 => reMWith (fun _ _ _ => [])
  | fuel + 1 => reMWith (reM fuel)

/-- All matches of `r` starting exactly at the head of `s` (absolute
position `p`), best first. -/
def reAt (r : RE) (s : PyStr) (p : Nat) : MOpt := reM (s.length + 1) r s p

/-- Python `re.search`: leftmost match, returned as
`(start, stop, captures)`. -/
def reSearchAux (r : RE) : PyStr → Nat → Option (Nat × Nat × Caps)
  | s, p =>
    match (reAt r s p).head? with
    | some nc => some (p, p + nc.1, nc.2)
    | none =>
      match s with
      | [] => none
      | _ :: t => reSearchAux r t (p + 1)

/-- Python `re.search` from position 0. -/
def reSearch (r : RE) (s : PyStr) : Option (Nat × Nat × Caps) := reSearchAux r s 0

/-- Embeds `re.search(...)` then `.group(i)`, sliced out of the subject. -/
def searchGroup (r : RE) (s : PyStr) (i : Nat) : Option PyStr :=
  match reSearch r s with
  | some m => ((m.2.2.find? (fun c => c.1 = i)).map (fun c => c.2)).map (sliceAbs s)
  | none => none

/-- Capture span of group `i`. -/
def capLookup (caps : Caps) (i : Nat) : Option (Nat × Nat) :=
  (caps.find? (fun c => c.1 = i)).map (fun c => c.2)

/-- Worker for `reSubAll`; fuel decreases every step, each step consumes at
least one character. -/
def reSubAllAux (r : RE) : Nat → PyStr → PyStr
  | 0, l => l
  | fuel + 1, l =>
    match (reAt r l 0).head? with
    | some nc =>
      if 0 < nc.1 then reSubAllAux r fuel (l.drop nc.1)
      else
        match l with
        | [] => []
        | c :: t => c :: reSubAllAux r fuel t
    | none =>
      match l with
      | [] => []
      | c :: t => c :: reSubAllAux r fuel t

/-- Python `re.sub(r, "", l)`: delete all non-overlapping matches, scanning
left to right and continuing after each match.  (The source's deletion
patterns never match the empty string.) -/
def reSubAll (r : RE) (l : PyStr) : PyStr := reSubAllAux r l.length l

/-- Worker for `reFindAll`. -/
def reFindAllAux (r : RE) : Nat → PyStr → Nat → List Caps
  | 0, _, _ => []
  | fuel + 1, s, p =>
    match (reAt r s p).head? with
    | some nc =>
      if 0 < nc.1 then nc.2 :: reFindAllAux r fuel (s.drop nc.1) (p + nc.1)
      else
        match s with
        | [] => []
        | _ :: t => reFindAllAux r fuel t (p + 1)
    | none =>
      match s with
      | [] => []
      | _ :: t => reFindAllAux r fuel t (p + 1)

/-- Python `re.findall`: captures of all non-overlapping matches, left to
right. -/
def reFindAll (r : RE) (s : PyStr) : List Caps := reFindAllAux r (s.length + 1) s 0

/-! Pattern building blocks. -/

/-- A literal character. -/
def lit1 (c : Char) : RE := .cls (fun x => x = c)

/-- A case-sensitive literal string. -/
def litS (s : PyStr) : RE := s.foldr (fun c r => .seq (lit1 c) r) .eps

/-- One character, case-insensitively (`re.IGNORECASE`). -/
def ciCls (c : Char) : RE := .cls (fun x => lowC x = lowC c)

/-- A literal string under `re.IGNORECASE`. -/
def ciLit (s : PyStr) : RE := s.foldr (fun c r => .seq (ciCls c) r) .eps

/-- Embeds `a|b|c|...` with Python's left-first priority. -/
def altList : List RE → RE
  | [] => .cls (fun _ => false)
  | [r] => r
  | r :: rest => .alt r (altList rest)

/-- Embeds `.` (any character except newline). -/
def dotC : RE := .cls (fun c => !(c = '\n'))

/-- Embeds `\s`. -/
def wsC : RE := .cls isWS

/-- Embeds `\d` (ASCII digits; the source's subjects only carry ASCII digits). -/
def digitC : RE := .cls Char.isDigit

/-- Embeds `[^c]`. -/
def notCh (c : Char) : RE := .cls (fun x => !(x = c))

/-- Embeds `[^A-Z]` under `re.IGNORECASE`: in Python the flag makes the class
`[A-Z]` match both cases, so its complement rejects every ASCII letter. -/
def notLetterC : RE := .cls (fun c => !(isAsciiLetter c))

/-- Embeds `x+` (greedy). -/
def plusG (r : RE) : RE := .seq r (.star r false)

/-- Embeds `x+?` (lazy). -/
def plusL (r : RE) : RE := .seq r (.star r true)

/-- Embeds `x*` (greedy). -/
def starGr (r : RE) : RE := .star r false

/-- Embeds `x*?` (lazy). -/
def starLz (r : RE) : RE := .star r true

/-! ## `parser.py`: the concrete regex patterns -/

/-- Embeds `(?:RUA|AVENIDA|AV|ALAMEDA|TRAVESSA|PRAÇA)` (always used with
`re.IGNORECASE`). -/
def streetAlt : RE :=
  altList [ciLit ("RUA".data), ciLit ("AVENIDA".data), ciLit ("AV".data),
    ciLit ("ALAMEDA".data), ciLit ("TRAVESSA".data), ciLit ("PRAÇA".data)]

/-- Embeds `_clean_endereco` pattern 1:
`((?:RUA|AVENIDA|AV|ALAMEDA|TRAVESSA|PRAÇA)\s+[^,]+,\s*N\.\s*[^,]+(?:,\s*[^,]+)*)`. -/
def cleanPat1 : RE :=
  .grp 1 (.seq streetAlt (.seq (plusG wsC) (.seq (plusG (notCh ','))
    (.seq (lit1 ',') (.seq (starGr wsC) (.seq (ciLit ("N.".data))
      (.seq (starGr wsC) (.seq (plusG (notCh ','))
        (starGr (.seq (lit1 ',') (.seq (starGr wsC) (plusG (notCh ',')))))))))))))

/-- Embeds `_clean_endereco` pattern 2:
`((?:RUA|AVENIDA|AV|ALAMEDA|TRAVESSA|PRAÇA)[^,]+(?:,[^,]+)*?)(?:,\s*,|$)`. -/
def cleanPat2 : RE :=
  .seq (.grp 1 (.seq streetAlt (.seq (plusG (notCh ','))
      (starLz (.seq (lit1 ',') (plusG (notCh ',')))))))
    (.alt (.seq (lit1 ',') (.seq (starGr wsC) (lit1 ','))) .ePy)

/-- Embeds `_clean_endereco` pattern 3: `((?:RUA|AVENIDA|AV|ALAMEDA|TRAVESSA|PRAÇA)[^$]+)`
(`$` inside a character class is a literal dollar sign). -/
def cleanPat3 : RE := .grp 1 (.seq streetAlt (plusG (notCh '$')))

/-- The three candidate-extraction patterns of `_clean_endereco`, in order. -/
def enderecoPatterns : List RE := [cleanPat1, cleanPat2, cleanPat3]

/-- The boilerplate blacklist of `_clean_endereco`:
`avaliação|valor.*venda|desconto|apartamento.*quarto|venda direta|número do imóvel`. -/
def lixoPat : RE :=
  altList [ciLit ("avaliação".data),
    .seq (ciLit ("valor".data)) (.seq (starGr dotC) (ciLit ("venda".data))),
    ciLit ("desconto".data),
    .seq (ciLit ("apartamento".data)) (.seq (starGr dotC) (ciLit ("quarto".data))),
    ciLit ("venda direta".data), ciLit ("número do imóvel".data)]

/-- Embeds `_clean_endereco` tighter re-extraction:
`((?:RUA|AVENIDA|AV|ALAMEDA|TRAVESSA|PRAÇA)[^,]+(?:,[^,]+){0,2})`. -/
def subMatchPat : RE :=
  .grp 1 (.seq streetAlt (.seq (plusG (notCh ','))
    (.rep (.seq (lit1 ',') (plusG (notCh ','))) 0 2)))

/-- Deletion pattern `avaliação:\s*R\$[^A-Z]*`. -/
def remPat1 : RE :=
  .seq (ciLit ("avaliação:".data))
    (.seq (starGr wsC) (.seq (ciCls 'R') (.seq (lit1 '$') (starGr notLetterC))))

/-- Deletion pattern `Valor mínimo de venda:[^A-Z]*`. -/
def remPat2 : RE := .seq (ciLit ("Valor mínimo de venda:".data)) (starGr notLetterC)

/-- Deletion pattern `desconto de[^A-Z]*`. -/
def remPat3 : RE := .seq (ciLit ("desconto de".data)) (starGr notLetterC)

/-- Deletion pattern `Apartamento\s*-\s*\d+\s*quarto\(s\)\s*-[^A-Z]*`. -/
def remPat4 : RE :=
  .seq (ciLit ("Apartamento".data)) (.seq (starGr wsC) (.seq (lit1 '-')
    (.seq (starGr wsC) (.seq (plusG digitC) (.seq (starGr wsC)
      (.seq (ciLit ("quarto(s)".data))
        (.seq (starGr wsC) (.seq (lit1 '-') (starGr notLetterC)))))))))

/-- Deletion pattern `Venda Direta Online[^A-Z]*`. -/
def remPat5 : RE := .seq (ciLit ("Venda Direta Online".data)) (starGr notLetterC)

/-- Deletion pattern `Número do imóvel:\s*[0-9\-]+\s*`. -/
def remPat6 : RE :=
  .seq (ciLit ("Número do imóvel:".data))
    (.seq (starGr wsC) (.seq (plusG (.cls (fun c => c.isDigit || c = '-'))) (starGr wsC)))

/-- Embeds `padroes_a_remover` of `_clean_endereco`, in application order. -/
def padroesARemover : List RE := [remPat1, remPat2, remPat3, remPat4, remPat5, remPat6]

/-- Embeds `número do item:\s*(\d+)` (`_extract_numero_item`). -/
def numeroItemPat : RE :=
  .seq (ciLit ("número do item:".data)) (.seq (starGr wsC) (.grp 1 (plusG digitC)))

/-- Embeds `número do imóvel:\s*([0-9\-]+)` (`_extract_codigo_imovel`). -/
def codigoPat : RE :=
  .seq (ciLit ("número do imóvel:".data))
    (.seq (starGr wsC) (.grp 1 (plusG (.cls (fun c => c.isDigit || c = '-')))))

/-- Embeds `_extract_endereco` strategy-2 pattern 1:
`Número do imóvel:\s*[0-9\-]+\s*(.+?)(?:\s*$|despesas)`. -/
def endPat1 : RE :=
  .seq (ciLit ("Número do imóvel:".data))
    (.seq (starGr wsC) (.seq (plusG (.cls (fun c => c.isDigit || c = '-')))
      (.seq (starGr wsC) (.seq (.grp 1 (plusL dotC))
        (.alt (.seq (starGr wsC) .ePy) (ciLit ("despesas".data)))))))

/-- Embeds `_extract_endereco` strategy-2 pattern 2:
`((?:RUA|AVENIDA|AV|ALAMEDA|TRAVESSA|PRAÇA)[^<\n]+?)(?:\s*<|\s*despesas)`. -/
def endPat2 : RE :=
  .seq (.grp 1 (.seq streetAlt (plusL (.cls (fun c => !(c = '<') && !(c = '\n'))))))
    (.alt (.seq (starGr wsC) (lit1 '<')) (.seq (starGr wsC) (ciLit ("despesas".data))))

/-- Embeds `_extract_endereco` strategy-2 pattern 3:
`número do item:\s*\d+[^<\n]*?([^<\n]+?)(?:\s*despesas|$)`. -/
def endPat3 : RE :=
  .seq (ciLit ("número do item:".data)) (.seq (starGr wsC) (.seq (plusG digitC)
    (.seq (starLz (.cls (fun c => !(c = '<') && !(c = '\n'))))
      (.seq (.grp 1 (plusL (.cls (fun c => !(c = '<') && !(c = '\n')))))
        (.alt (.seq (starGr wsC) (ciLit ("despesas".data))) .ePy)))))

/-- Embeds `(\d+,?\d*)\s*m2` (`_extract_technical_info`, case-sensitive). -/
def areaPat : RE :=
  .seq (.grp 1 (.seq (plusG digitC) (.seq (.rep (lit1 ',') 0 1) (starGr digitC))))
    (.seq (starGr wsC) (litS ("m2".data)))

/-- Embeds `(\d+)\s*quarto` (`_extract_technical_info`, applied to lowercased text). -/
def quartosPat : RE :=
  .seq (.grp 1 (plusG digitC)) (.seq (starGr wsC) (litS ("quarto".data)))

/-! ## `parser.py`: neighbourhood detection -/

/-- The `prefixos_bairro` list of `detect_bairro_by_patterns`. -/
def prefixosBairro : List PyStr :=
  ["VILA ".data, "CIDADE ".data, "JARDIM ".data, "PARQUE ".data, "CONJUNTO ".data]

/-- The candidate text pattern 3 extracts for a prefix found at
`start_pos`: from the prefix up to the next `','`, then up to the next
`' - '` (`endereco_upper[start_pos:].split(',')[0].split(' - ')[0]`). -/
def prefixRestText (endereco_upper : PyStr) (start_pos : Nat) : PyStr :=
  (splitOnStr (" - ".data)
    ((splitOnChar ',' (endereco_upper.drop start_pos)).headD [])).headD []

/-- Pattern 3 of `detect_bairro_by_patterns`: first listed prefix occurring
in the address whose candidate is more than 3 characters longer than the
prefix. -/
def prefixScan (endereco_upper : PyStr) : List PyStr → PyStr
  | [] => []
  | pfx :: rest =>
    if hasSub endereco_upper pfx then
      match findSub endereco_upper pfx with
      | some start_pos =>
        if pfx.length + 3 < (prefixRestText endereco_upper start_pos).length then
          pyStrip (prefixRestText endereco_upper start_pos)
        else prefixScan endereco_upper rest
      | none => prefixScan endereco_upper rest
    else prefixScan endereco_upper rest

/-- Pattern 1 of `detect_bairro_by_patterns`: the last comma-separated part,
stripped, when there are at least two parts and it is alphabetic and longer
than 4 characters. -/
def patternLastComma (endereco_upper : PyStr) : Option PyStr :=
  if 2 ≤ (splitOnChar ',' endereco_upper).length then
    if 4 < (pyStrip ((splitOnChar ',' endereco_upper).getLastD [])).length &&
       pyIsAlpha (pyStrip ((splitOnChar ',' endereco_upper).getLastD [])) then
      some (pyStrip ((splitOnChar ',' endereco_upper).getLastD []))
    else none
  else none

/-- Pattern 2 of `detect_bairro_by_patterns`: the second-to-last
`' - '`-separated part, under the same constraint. -/
def patternHyphen (endereco_upper : PyStr) : Option PyStr :=
  if 2 ≤ (splitOnStr (" - ".data) endereco_upper).length then
    if 4 < (pyStrip (((splitOnStr (" - ".data) endereco_upper).reverse.drop 1).headD [])).length
       && pyIsAlpha
         (pyStrip (((splitOnStr (" - ".data) endereco_upper).reverse.drop 1).headD [])) then
      some (pyStrip (((splitOnStr (" - ".data) endereco_upper).reverse.drop 1).headD []))
    else none
  else none

/-- Embeds `CaixaPropertyParser.detect_bairro_by_patterns`. -/
def detect_bairro_by_patterns (endereco_upper : PyStr) : PyStr :=
  match patternLastComma endereco_upper with
  | some b => b
  | none =>
    match patternHyphen endereco_upper with
    | some b => b
    | none => prefixScan endereco_upper prefixosBairro

/-- Embeds `CaixaPropertyParser.detect_bairro_from_endereco`.  The available
neighbourhood list is passed explicitly (it is `self.bairros_disponiveis` in
the source); `List.insertionSort` is a stable sort, as is Python's `sorted`
with `key=len, reverse=True`, and two stable sorts under the same total
preorder agree, so the longest-first ordering below is the source's. -/
def detect_bairro_from_endereco (bairros_disponiveis : List PyStr) (endereco : PyStr) : PyStr :=
  if endereco.isEmpty then []
  else if bairros_disponiveis.isEmpty then detect_bairro_by_patterns (pyUpper endereco)
  else
    match (bairros_disponiveis.insertionSort (fun a b => b.length ≤ a.length)).find?
        (fun bairro => hasSub (pyUpper endereco) bairro) with
    | some bairro => bairro
    | none => detect_bairro_by_patterns (pyUpper endereco)

/-! ## `parser.py`: `_clean_endereco` -/

/-- Suffix test for `,\s*,\s*$`: a comma, whitespace, a comma, then
whitespace up to the end of the string.  Equivalent to the backtracking
match because `\s` never matches `','` (the greedy `\s*` runs are forced)
and a match necessarily extends to the end of the subject. -/
def isDCEnd (l : PyStr) : Bool :=
  match l with
  | ',' :: rest =>
    match rest.dropWhile isWS with
    | ',' :: rest2 => (rest2.dropWhile isWS).isEmpty
    | _ => false
  | _ => false

/-- Hand-compiled `re.sub(r',\s*,\s*$', '', l)`: everything from the first
position whose suffix matches the pattern is deleted. -/
def subDCEnd : PyStr → PyStr
  | [] => []
  | c :: rest => if isDCEnd (c :: rest) then [] else c :: subDCEnd rest

/-- Hand-compiled `re.search(r'^(.{50,120}),\s*,', l)` followed by
`.group(1).strip()`, with `l` returned unchanged when there is no match:
the pattern is anchored at position 0 and `.{50,120}` is greedy, so the
match keeps the largest `k ∈ [50,120]` such that the first `k` characters
contain no newline and are followed by `,\s*,`. -/
def truncCut (l : PyStr) : PyStr :=
  match (List.range' 50 71).reverse.find? (fun k =>
      decide ((l.take k).length = k) && (l.take k).all (fun c => !(c = '\n')) &&
      (match l.drop k with
       | ',' :: r => decide ((r.dropWhile isWS).head? = some ',')
       | _ => false)) with
  | some k => pyStrip (l.take k)
  | none => l

/-- The candidate loop of `_clean_endereco`: first pattern whose stripped
group-1 match survives the blacklist — or, for a blacklisted candidate
longer than 20 characters, whose tighter re-extraction succeeds. -/
def cleanLoop (e : PyStr) : List RE → Option PyStr
  | [] => none
  | r :: rest =>
    match searchGroup r e 1 with
    | none => cleanLoop e rest
    | some g1 =>
      let candidato := pyStrip g1
      if (reSearch lixoPat candidato).isNone then some candidato
      else if 20 < candidato.length then
        match searchGroup subMatchPat candidato 1 with
        | some g => some (pyStrip g)
        | none => cleanLoop e rest
      else cleanLoop e rest

/-- The `padroes_a_remover` loop of `_clean_endereco`: apply each deletion
pattern's `re.sub` once, in order. -/
def removeBoiler (e : PyStr) : PyStr :=
  padroesARemover.foldl (fun acc r => reSubAll r acc) e

/-- The final cleanup steps of `_clean_endereco`: collapse whitespace and
strip, drop a trailing double comma, and truncate over-long results at a
double-comma boundary. -/
def cleanFinal (e1 : PyStr) : PyStr :=
  if 150 < (pyStrip (subDCEnd (pyStrip (subWS e1)))).length then
    truncCut (pyStrip (subDCEnd (pyStrip (subWS e1))))
  else pyStrip (subDCEnd (pyStrip (subWS e1)))

/-- Embeds `CaixaPropertyParser._clean_endereco`. -/
def clean_endereco (endereco_bruto : PyStr) : PyStr :=
  if endereco_bruto.isEmpty then []
  else
    cleanFinal
      (match cleanLoop (pyStrip endereco_bruto) enderecoPatterns with
       | some found => found
       | none => removeBoiler (pyStrip endereco_bruto))

/-! ## `parser.py`: item extraction -/

/-- A listing item (`li.group-block-item`), abstracted from BeautifulSoup:
the `get_text(strip=True)` of its `<strong>` descendants in document order,
likewise of its `<a>` descendants, and its full `get_text()`. -/
structure Item where
  strongs : List PyStr
  links : List PyStr
  allText : PyStr
deriving DecidableEq

/-- The per-item record dictionary of `extract_property_from_caixa_item`;
every field defaults to the empty string. -/
structure PropertyData where
  codigo : PyStr := []
  titulo : PyStr := []
  endereco : PyStr := []
  bairro : PyStr := []
  modalidade : PyStr := []
  valor : PyStr := []
  area : PyStr := []
  quartos : PyStr := []
  tipo_imovel : PyStr := []
  numero_item : PyStr := []
deriving DecidableEq

/-- The `<strong>` filter of the title scan: non-empty, not starting with
`tempo restante` / `número do item` / `despesas` (lower-cased), and longer
than 10 characters. -/
def validTitleStrong (t : PyStr) : Bool :=
  !t.isEmpty &&
  !(isPre ("tempo restante".data) (pyLower t)) &&
  !(isPre ("número do item".data) (pyLower t)) &&
  !(isPre ("despesas".data) (pyLower t)) &&
  decide (10 < t.length)

/-- The `<a>`-fallback filter: non-empty, longer than 10 characters, not
starting with `tempo restante`. -/
def validTitleLink (t : PyStr) : Bool :=
  !t.isEmpty && decide (10 < t.length) && !(isPre ("tempo restante".data) (pyLower t))

/-- The title text settled on before the `'|'` split: the first valid
`<strong>`, else the first `<strong>` of the item; if that text still starts
with `tempo restante` or `número do item`, the first valid `<a>` text
replaces it when one exists.  Empty when the item has no `<strong>`. -/
def computeTitleText (it : Item) : PyStr :=
  let title_element :=
    match it.strongs.find? validTitleStrong with
    | some s => some s
    | none => it.strongs.head?
  match title_element with
  | none => []
  | some t0 =>
    if isPre ("tempo restante".data) (pyLower t0) ||
       isPre ("número do item".data) (pyLower t0) then
      match it.links.find? validTitleLink with
      | some lk => lk
      | none => t0
    else t0

/-- Title/price split on `'|'` (`extract_property_from_caixa_item`). -/
def tituloValor (it : Item) : PyStr × PyStr :=
  let title_text := computeTitleText it
  let parts := splitOnChar '|' title_text
  if 2 ≤ parts.length then
    (pyStrip (parts.headD []),
     if hasSub title_text ("R$".data) then pyStrip (parts.getLastD []) else [])
  else (title_text, [])

/-- Embeds `_extract_numero_item` (empty when the pattern does not match). -/
def extract_numero_item (all_text : PyStr) : PyStr :=
  match searchGroup numeroItemPat all_text 1 with
  | some g => g
  | none => []

/-- Embeds `_extract_codigo_imovel` (the matched group is stripped). -/
def extract_codigo_imovel (all_text : PyStr) : PyStr :=
  match searchGroup codigoPat all_text 1 with
  | some g => pyStrip g
  | none => []

/-- Strategy 1 of `_extract_endereco`, outer loop: the lines following the
first line containing `número do item:`; `none` when no line carries the
marker. -/
def afterMarkerLines : List PyStr → Option (List PyStr)
  | [] => none
  | line :: rest =>
    if hasSub (pyLower (pyStrip line)) ("número do item:".data) then some rest
    else afterMarkerLines rest

/-- Strategy 1 of `_extract_endereco`, inner loop: first following line that
is non-empty, does not start with `despesas`, and cleans to a non-empty
address. -/
def strat1Scan : List PyStr → Option PyStr
  | [] => none
  | line :: rest =>
    let next_line := pyStrip line
    if next_line.isEmpty then strat1Scan rest
    else if isPre ("despesas".data) (pyLower next_line) then strat1Scan rest
    else
      let endereco_limpo := clean_endereco next_line
      if endereco_limpo.isEmpty then strat1Scan rest else some endereco_limpo

/-- Strategy 2 of `_extract_endereco`: regexes in decreasing specificity;
a pattern wins when its cleaned group is non-empty and longer than 10. -/
def strat2Scan (all_text : PyStr) : List RE → PyStr
  | [] => []
  | r :: rest =>
    match searchGroup r all_text 1 with
    | none => strat2Scan all_text rest
    | some g =>
      let endereco_limpo := clean_endereco (pyStrip g)
      if !endereco_limpo.isEmpty && decide (10 < endereco_limpo.length) then endereco_limpo
      else strat2Scan all_text rest

/-- Embeds `CaixaPropertyParser._extract_endereco` (returns the empty string when
both strategies fail, matching the untouched dictionary default). -/
def extract_endereco (all_text : PyStr) : PyStr :=
  let lines := splitOnChar '\n' all_text
  let s1 :=
    match afterMarkerLines lines with
    | some rest => strat1Scan rest
    | none => none
  match s1 with
  | some e => e
  | none => strat2Scan all_text [endPat1, endPat2, endPat3]

/-- One line of `_extract_technical_info`. -/
def techStep (pd : PropertyData) (line : PyStr) : PropertyData :=
  let line_lower := pyLower line
  let pd1 :=
    if hasSub line_lower ("apartamento".data) && hasSub line_lower ("m2".data) then
      let pdA := { pd with tipo_imovel := "Apartamento".data }
      match searchGroup areaPat line 1 with
      | some g => { pdA with area := g ++ " m²".data }
      | none => pdA
    else if hasSub line_lower ("casa".data) then { pd with tipo_imovel := "Casa".data }
    else pd
  let pd2 :=
    match searchGroup quartosPat line_lower 1 with
    | some g => { pd1 with quartos := g ++ " quartos".data }
    | none => pd1
  if hasSub line_lower ("leilão".data) then { pd2 with modalidade := "Leilão".data }
  else if hasSub line_lower ("venda direta".data) then
    { pd2 with modalidade := "Venda Direta".data }
  else pd2

/-- Embeds `_extract_technical_info` over all lines of the item text. -/
def extract_technical_info (pd : PropertyData) (all_text : PyStr) : PropertyData :=
  (splitOnChar '\n' all_text).foldl techStep pd

/-- The neighbourhood step of `extract_property_from_caixa_item`: when an
address was recovered and detection finds a neighbourhood, store it. -/
def applyBairro (bairros_disponiveis : List PyStr) (pd : PropertyData) : PropertyData :=
  if !pd.endereco.isEmpty then
    if !(detect_bairro_from_endereco bairros_disponiveis pd.endereco).isEmpty then
      { pd with bairro := detect_bairro_from_endereco bairros_disponiveis pd.endereco }
    else pd
  else pd

/-- The non-title extraction steps of `extract_property_from_caixa_item`
(item number, property code, address, technical attributes, neighbourhood);
none of them writes `titulo` or `valor`. -/
def fillDetails (bairros_disponiveis : List PyStr) (it : Item) (pd0 : PropertyData) :
    PropertyData :=
  applyBairro bairros_disponiveis
    (extract_technical_info
      { pd0 with
        numero_item := extract_numero_item it.allText,
        codigo := extract_codigo_imovel it.allText,
        endereco := extract_endereco it.allText }
      it.allText)

/-- Embeds `CaixaPropertyParser.extract_property_from_caixa_item`: `none` exactly
when no non-empty title was recovered (the source's `return property_data if
property_data['titulo'] else None`; the `except` branch also yields `None`
and is unreachable in this total embedding). -/
def extract_property_from_caixa_item (bairros_disponiveis : List PyStr) (it : Item) :
    Option PropertyData :=
  if (fillDetails bairros_disponiveis it
      { titulo := (tituloValor it).1, valor := (tituloValor it).2 }).titulo.isEmpty then
    none
  else
    some (fillDetails bairros_disponiveis it
      { titulo := (tituloValor it).1, valor := (tituloValor it).2 })

/-! ## `parser.py`: page extraction -/

/-- The row dictionary of `parse_property_from_row`; note it has no title
field at all. -/
structure RowData where
  codigo : PyStr := []
  endereco : PyStr := []
  bairro : PyStr := []
  modalidade : PyStr := []
  valor : PyStr := []
  area : PyStr := []
  quartos : PyStr := []
  garagem : PyStr := []
  raw_data : PyStr := []
deriving DecidableEq

/-- One cell step of `parse_property_from_row` (`ic` is `(index, cell)`). -/
def rowStep (rd : RowData) (ic : Nat × PyStr) : RowData :=
  let cell := ic.2
  let cell_lower := pyStrip (pyLower cell)
  let rd1 :=
    if ic.1 = 0 && !(pyStrip cell).isEmpty then { rd with codigo := pyStrip cell } else rd
  let rd2 := if hasSub cell_lower ("r$".data) then { rd1 with valor := pyStrip cell } else rd1
  let rd3 :=
    if hasSub cell_lower ("m²".data) || hasSub cell_lower ("m2".data) then
      { rd2 with area := pyStrip cell }
    else rd2
  let rd4 :=
    if ["rua".data, "av ".data, "avenida".data, "alameda".data, "travessa".data].any
        (fun w => hasSub cell_lower w) then
      { rd3 with endereco := pyStrip cell }
    else rd3
  if ["quarto".data, "dorm".data, "qto".data].any (fun w => hasSub cell_lower w) then
    { rd4 with quartos := pyStrip cell }
  else rd4

/-- Embeds `CaixaPropertyParser.parse_property_from_row`. -/
def parse_property_from_row (row_cells : List PyStr) : RowData :=
  row_cells.enum.foldl rowStep { raw_data := joinWith (" | ".data) row_cells }

/-- A record of the extractor's output: either an item dictionary of the
structural strategy or a row dictionary of the tabular fallback. -/
inductive Rec where
  | item (d : PropertyData)
  | row (d : RowData)
deriving DecidableEq

/-- One result page, abstracted from BeautifulSoup: the results container
`#listaimoveispaginacao` is present with its `li.group-block-item` items;
or the page still shows the search form (`Selecione.*modalidade.*venda`
found); or neither, and the fallback sees the page's tables as rows of
`strip=True` cell texts. -/
inductive Page where
  | results (items : List Item)
  | formPage
  | fallback (tables : List (List (List PyStr)))

/-- The property-indicator keyword set of `_extract_from_fallback_methods`. -/
def rowKeywords : List PyStr :=
  ["r$".data, "real".data, "reais".data, "valor".data, "preço".data,
   "rua".data, "av ".data, "avenida".data, "alameda".data, "travessa".data,
   "m²".data, "m2".data, "metro".data,
   "apartamento".data, "casa".data, "imovel".data, "imóvel".data,
   "dorm".data, "quarto".data, "qto".data]

/-- Embeds `CaixaHtmlExtractor.extract_properties_from_page` (the trailing div scan
of the fallback only logs and contributes no records). -/
def extract_properties_from_page (bairros_disponiveis : List PyStr) : Page → List Rec
  | .results items =>
    items.filterMap
      (fun it => (extract_property_from_caixa_item bairros_disponiveis it).map .item)
  | .formPage => []
  | .fallback tables =>
    tables.flatMap (fun rows => rows.filterMap (fun cells =>
      if 2 ≤ cells.length then
        let row_text := pyLower (joinWith (" ".data) cells)
        if rowKeywords.any (fun w => hasSub row_text w) && 3 ≤ cells.length then
          some (.row (parse_property_from_row cells))
        else none
      else none))

deriving instance DecidableEq for Except

/-! ## `script.py`: city-list parsing and city-code resolution -/

/-- The apostrophe quoting the option values in the city-list markup. -/
def qc : Char := Char.ofNat 39

/-- The option pattern of `_obter_codigo_cidade` / `list_available_cities`
(case-sensitive, no flags): a literal open tag, the quoted value (group 1),
then the display text up to the next tag (group 2). -/
def optionPat : RE :=
  .seq (litS ("<option value=".data)) (.seq (lit1 qc)
    (.seq (.grp 1 (plusG (notCh qc))) (.seq (lit1 qc)
      (.seq (lit1 '>') (.grp 2 (plusG (notCh '<')))))))

/-- Embeds `CaixaScraperSP._norm`: strip, uppercase, collapse internal whitespace
to single spaces. -/
def pyNorm (s : PyStr) : PyStr := subWS (pyUpper (pyStrip s))

/-- Embeds `re.findall(option_pattern, html)`: the `(value, city_text)` pairs of
all non-overlapping matches. -/
def optionMatches (html : PyStr) : List (PyStr × PyStr) :=
  (reFindAll optionPat html).filterMap (fun caps =>
    match capLookup caps 1, capLookup caps 2 with
    | some sp1, some sp2 => some (sliceAbs html sp1, sliceAbs html sp2)
    | _, _ => none)

/-- Python dict assignment `d[k] = v` on an insertion-ordered association
list: an existing key keeps its position and gets the new value. -/
def dictInsert (d : List (PyStr × PyStr)) (k v : PyStr) : List (PyStr × PyStr) :=
  if d.any (fun kv => decide (kv.1 = k)) then
    d.map (fun kv => if kv.1 = k then (k, v) else kv)
  else d ++ [(k, v)]

/-- The filter/normalisation loop of `_obter_codigo_cidade`: builds
`available_cities` (in match order, duplicates kept) and the `city_options`
dict. -/
def buildCityOptions (pairs : List (PyStr × PyStr)) :
    List PyStr × List (PyStr × PyStr) :=
  pairs.foldl (fun acc vc =>
    if !vc.1.isEmpty && !(pyStrip vc.2).isEmpty &&
       !(decide (pyUpper (pyStrip vc.2) = "SELECIONE".data)) then
      let normalized_city := pyNorm (pyStrip vc.2)
      (acc.1 ++ [normalized_city], dictInsert acc.2 normalized_city vc.1)
    else acc) ([], [])

/-- The static override table `CITY_CODE_OVERRIDES` of `script.py`. -/
def CITY_CODE_OVERRIDES : List ((PyStr × PyStr) × PyStr) :=
  [(("SP".data, "SAO PAULO".data), "9859".data)]

/-- The matching cascade of `_obter_codigo_cidade` over the parsed
`city_options` dict, in source order: (1) exact key lookup; (2) first
candidate whose name contains the normalized input as a substring; (3) first
candidate whose name is contained in the normalized input; (4) the static
override table keyed by `(estado, alvo)`; (5) failure. -/
def cascadeResolve (city_options : List (PyStr × PyStr)) (estado alvo : PyStr) :
    Option PyStr :=
  match city_options.find? (fun kv => decide (kv.1 = alvo)) with
  | some kv => some kv.2
  | none =>
    match city_options.find? (fun kv => hasSub kv.1 alvo) with
    | some kv => some kv.2
    | none =>
      match city_options.find? (fun kv => hasSub alvo kv.1) with
      | some kv => some kv.2
      | none =>
        match CITY_CODE_OVERRIDES.find?
            (fun ov => decide (ov.1.1 = estado) && decide (ov.1.2 = alvo)) with
        | some ov => some ov.2
        | none => none

/-- Embeds `CaixaScraperSP._obter_codigo_cidade`, on the response markup of
`carregaListaCidades.asp` (the network call is abstracted into the `html`
argument).  A failed resolution raises `ValueError` carrying the full
`available_cities` list. -/
def obter_codigo_cidade (html : PyStr) (estado nome_cidade : PyStr) :
    Except (List PyStr) PyStr :=
  let alvo := pyNorm nome_cidade
  let built := buildCityOptions (optionMatches html)
  match cascadeResolve built.2 estado alvo with
  | some code => .ok code
  | none => .error built.1

/-! ## `script.py`: pagination manifest and the page loop -/

/-- An element of the search-start response, abstracted from BeautifulSoup:
tag name, `id` attribute (empty when absent — `inp.get('id') or ''`) and
optional `value` attribute. -/
structure HElem where
  tag : PyStr := []
  idAttr : PyStr := []
  value : Option PyStr := none
deriving DecidableEq

/-- Embeds `int(elem.get('value'))` for the first element with the given id,
guarded by the source's truthiness test; parse failure keeps the default
(the `try/except: pass`). -/
def hiddenIntD (doc : List HElem) (eid : PyStr) (dflt : Int) : Int :=
  match doc.find? (fun e => decide (e.idAttr = eid)) with
  | some e =>
    match e.value with
    | some v =>
      if v.isEmpty then dflt
      else
        match pyInt v with
        | some n => n
        | none => dflt
    | none => dflt
  | none => dflt

/-- Python dict assignment for the `ids_por_pagina` map. -/
def dictInsertInt (d : List (Int × PyStr)) (k : Int) (v : PyStr) : List (Int × PyStr) :=
  if d.any (fun kv => decide (kv.1 = k)) then
    d.map (fun kv => if kv.1 = k then (k, v) else kv)
  else d ++ [(k, v)]

/-- Embeds `CaixaScraperSP._extrair_ids_e_paginacao`: per-page identifier batches
(`hdnImovN` inputs, suffix parsed with `int(iid.replace('hdnImov', ''))`,
unparsable suffixes skipped), total page count (`hdnQtdPag`, default 1) and
total record count (`hdnQtdRegistros`, default 0). -/
def extrair_ids_e_paginacao (doc : List HElem) :
    List (Int × PyStr) × Int × Int :=
  let total_paginas := hiddenIntD doc ("hdnQtdPag".data) 1
  let total_registros := hiddenIntD doc ("hdnQtdRegistros".data) 0
  let ids_por_pagina := (doc.filter (fun e => decide (e.tag = "input".data))).foldl
    (fun d e =>
      if isPre ("hdnImov".data) e.idAttr then
        match pyInt (removeAllSub ("hdnImov".data) e.idAttr) with
        | some idx => dictInsertInt d idx (pyStrip (e.value.getD []))
        | none => d
      else d) []
  (ids_por_pagina, total_paginas, total_registros)

/-- Embeds `ids_por_pagina.get(page_num, "")`. -/
def idsLookup (d : List (Int × PyStr)) (k : Int) : PyStr :=
  match d.find? (fun kv => decide (kv.1 = k)) with
  | some kv => kv.2
  | none => []

/-- Embeds `range(1, total_paginas + 1)` (empty when the parsed total is
non-positive). -/
def pagesRange (total : Int) : List Nat :=
  if total ≤ 0 then [] else List.range' 1 total.toNat

/-- The page loop of `scrape_all_properties`: a page without an identifier
batch is skipped with a logged warning; otherwise its fragment is fetched
and extracted.  Returns the accumulated records together with the pages
actually fetched.  There is no early exit: `total_registros` is not
consulted by the loop. -/
def pageLoop (ids : Int → PyStr) (fetchRecs : PyStr → List Rec) :
    List Nat → List Rec × List Nat
  | [] => ([], [])
  | p :: rest =>
    let idsP := ids (Int.ofNat p)
    if idsP.isEmpty then pageLoop ids fetchRecs rest
    else
      let r := pageLoop ids fetchRecs rest
      (fetchRecs idsP ++ r.1, p :: r.2)

/-- Embeds `CaixaScraperSP.scrape_all_properties`, with the network abstracted:
`cityRes` is the outcome of `_obter_codigo_cidade` (its `ValueError`
propagates and aborts the run), `searchDoc` the parsed search-start
response, `bairros_disponiveis` the parser's neighbourhood list after the
best-effort `_obter_bairros` (whose failure is caught), and `fetchItems`
maps a page's identifier batch to the listing items of the fragment
returned by `carregaListaImoveis.asp` — the fragment is wrapped in
`<div id='listaimoveispaginacao'>`, so fetched pages always take the
structural branch of the extractor. -/
def scrape_all_properties (cityRes : Except (List PyStr) PyStr)
    (searchDoc : List HElem) (bairros_disponiveis : List PyStr)
    (fetchItems : PyStr → List Item) : Except (List PyStr) (List Rec) :=
  match cityRes with
  | .error cs => .error cs
  | .ok _ =>
    let m := extrair_ids_e_paginacao searchDoc
    .ok (pageLoop (idsLookup m.1)
      (fun ids =>
        extract_properties_from_page bairros_disponiveis (.results (fetchItems ids)))
      (pagesRange m.2.1)).1

/-! ## `script.py`: the HTTP client (`_post` / `_get`) -/

/-- One attempt's outcome: either the underlying `requests` call raised
(`RequestException`: connection error, timeout, ...), or a response arrived,
carrying a status code and whether `_is_captcha` fires on its body. -/
inductive HttpOutcome where
  | netErr : HttpOutcome
  | resp (status : Nat) (captcha : Bool) : HttpOutcome
deriving DecidableEq

/-- The body shared by `_post` and `_get`: a captcha response refreshes the
session and raises `RequestException`; then a status `≥ 500` raises
`RequestException`; any other response is returned as-is (`some status`). -/
def attemptResult : HttpOutcome → Option Nat
  | .netErr => none
  | .resp status cap =>
    if cap then none else if 500 ≤ status then none else some status

/-- Embeds `tenacity.wait_exponential(multiplier=0.5, min=0.5, max=6)` slept after
the `n`-th failed attempt: `0.5 · 2^(n-1)` clamped into `[0.5, 6]`
seconds. -/
def waitAfter (n : Nat) : ℚ := max (1 / 2) (min ((1 / 2) * 2 ^ (n - 1)) 6)

/-- The retry loop of
`@retry(stop=stop_after_attempt(5), wait=wait_exponential(...),
retry=retry_if_exception_type(RequestException))` with `reraise=True`:
`attempt` is 1-based and `fuel` bounds the recursion (5 at the top level).
Returns the status returned to the caller (`none` when the last
`RequestException` is re-raised), the number of attempts made, and the
backoff waits slept between attempts. -/
def retryRun (o : Nat → HttpOutcome) : Nat → Nat → Option Nat × Nat × List ℚ
  | attempt, 0 => (none, attempt - 1, [])
  | attempt, fuel + 1 =>
    match attemptResult (o attempt) with
    | some st => (some st, attempt, [])
    | none =>
      if 5 ≤ attempt then (none, attempt, [])
      else
        let r := retryRun o (attempt + 1) fuel
        (r.1, r.2.1, waitAfter attempt :: r.2.2)

/-- A `_post`/`_get` call under its decorators; `o n` is the outcome the
network would deliver on the `n`-th attempt. -/
def clientCall (o : Nat → HttpOutcome) : Option Nat × Nat × List ℚ := retryRun o 1 5

/-! ## Definitions taken from the specification's wording, and predicates
used by the claims -/

/-- The cascade in the order the specification claims (§4.2): exact match;
then "normalized input contains normalized candidate"; then "normalized
candidate contains normalized input"; then the override table; else
failure.  To be compared against `cascadeResolve`, which is read off the
source. -/
def cascadeClaimOrder (city_options : List (PyStr × PyStr)) (estado alvo : PyStr) :
    Option PyStr :=
  match city_options.find? (fun kv => decide (kv.1 = alvo)) with
  | some kv => some kv.2
  | none =>
    match city_options.find? (fun kv => hasSub alvo kv.1) with
    | some kv => some kv.2
    | none =>
      match city_options.find? (fun kv => hasSub kv.1 alvo) with
      | some kv => some kv.2
      | none =>
        match CITY_CODE_OVERRIDES.find?
            (fun ov => decide (ov.1.1 = estado) && decide (ov.1.2 = alvo)) with
        | some ov => some ov.2
        | none => none

/-- The corrected cascade phrased as the specification phrases it — "the
first of the following stages with a hit wins": exact match;
candidate-name-contains-input; input-contains-candidate-name; override. -/
def cascadeStages (city_options : List (PyStr × PyStr)) (estado alvo : PyStr) :
    Option PyStr :=
  if city_options.any (fun kv => decide (kv.1 = alvo)) then
    (city_options.find? (fun kv => decide (kv.1 = alvo))).map (fun kv => kv.2)
  else if city_options.any (fun kv => hasSub kv.1 alvo) then
    (city_options.find? (fun kv => hasSub kv.1 alvo)).map (fun kv => kv.2)
  else if city_options.any (fun kv => hasSub alvo kv.1) then
    (city_options.find? (fun kv => hasSub alvo kv.1)).map (fun kv => kv.2)
  else
    (CITY_CODE_OVERRIDES.find?
      (fun ov => decide (ov.1.1 = estado) && decide (ov.1.2 = alvo))).map (fun ov => ov.2)

/-- Spec-modelled page loop with the early stop of §4.3: iteration stops
before fetching further pages once the accumulated record count reaches
`totalRecords`. -/
def pageLoopEarlyStop (ids : Int → PyStr) (fetchRecs : PyStr → List Rec)
    (totalRecords : Int) : List Nat → List Rec → List Rec × List Nat
  | [], acc => (acc, [])
  | p :: rest, acc =>
    if 0 < totalRecords ∧ totalRecords ≤ (acc.length : Int) then (acc, [])
    else
      let idsP := ids (Int.ofNat p)
      if idsP.isEmpty then pageLoopEarlyStop ids fetchRecs totalRecords rest acc
      else
        let r := pageLoopEarlyStop ids fetchRecs totalRecords rest (acc ++ fetchRecs idsP)
        (r.1, p :: r.2)

/-- The title of an output record, when the record's dictionary has a title
key at all (row dictionaries of the tabular fallback do not). -/
def recTitulo : Rec → Option PyStr
  | .item d => some d.titulo
  | .row _ => none

/-- All whitespace characters of `l` are plain spaces. -/
def wsOnlySpace (l : PyStr) : Bool := l.all (fun c => !(isWS c) || c = ' ')

/-- No two adjacent characters of `l` are both spaces. -/
def noDoubleSpace : PyStr → Bool
  | c :: d :: rest => (!(c = ' ' && d = ' ')) && noDoubleSpace (d :: rest)
  | _ => true

/-- Whitespace-normal form: whitespace only as single interior spaces. -/
def wsCollapsed (l : PyStr) : Bool :=
  wsOnlySpace l && noDoubleSpace l &&
  (match l.head? with | some c => !(isWS c) | none => true) &&
  (match l.getLast? with | some c => !(isWS c) | none => true)

/-- C1 counterexample dict: candidates AXYB (code 1) and XY (code 2); the
input AXY is a substring of AXYB and contains XY, so the two partial-match
steps disagree on it. -/
def c1Opts : List (PyStr × PyStr) := [("AXYB".data, "1".data), ("XY".data, "2".data)]

/-- C2 counterexample outcomes: attempt 1 receives a 403 carrying the
captcha banner; attempt 2 receives a clean 200. -/
def c2Outcomes : Nat → HttpOutcome :=
  fun n => if n = 1 then .resp 403 true else .resp 200 false

/-- C3 counterexample identifier map: pages 1 and 2 both carry a batch. -/
def c3Ids : Int → PyStr :=
  fun k => if k = 1 then "a".data else if k = 2 then "b".data else []

/-- C3 counterexample fetch: every page yields exactly one record. -/
def c3Fetch : PyStr → List Rec := fun s => [.row { raw_data := s }]

/-- C4 counterexample page: no results container, one table whose single
row has three cells and a currency marker. -/
def c4Page : Page :=
  .fallback [[["R$ 100".data, "RUA A, 1".data, "2 quartos".data]]]

/-- C7 counterexample item: its only emphasized text is the boilerplate
`Tempo restante: 2 dias` and it has no anchor links. -/
def c7Item : Item :=
  { strongs := ["Tempo restante: 2 dias".data], links := [], allText := [] }

/-- C6 counterexample input: deleting `Número do imóvel: 123 ` splices
`desc` and `onto de blah` into the boilerplate phrase `desconto de`, which
only a second cleanup pass removes. -/
def c6Input : PyStr := "descNúmero do imóvel: 123 onto de blah".data

/-! ## Supporting lemmas -/

theorem isPre_iff (a b : PyStr) : isPre a b = true ↔ a <+: b := by
  induction a generalizing b with
  | nil => simp [isPre]
  | cons x xs ih =>
    cases b with
    | nil => simp [isPre]
    | cons y ys =>
      rw [List.cons_prefix_cons]
      simp only [isPre, Bool.and_eq_true, decide_eq_true_eq]
      rw [ih]

theorem hasSub_iff (hay n : PyStr) : hasSub hay n = true ↔ n <:+: hay := by
  induction hay with
  | nil =>
    cases n with
    | nil => simp [hasSub, isPre]
    | cons c t => simp [hasSub, isPre]
  | cons c t ih =>
    by_cases hp : isPre n (c :: t) = true
    · simp only [hasSub, hp, if_true, true_iff]
      exact ((isPre_iff _ _).1 hp).isInfix
    · simp only [hasSub]
      rw [if_neg hp, ih]
      constructor
      · exact fun hinf => hinf.trans (List.suffix_cons c t).isInfix
      · intro hinf
        rcases List.infix_cons_iff.1 hinf with hpre | hsuf
        · exact absurd ((isPre_iff _ _).2 hpre) hp
        · exact hsuf

theorem dropTrailWS_prefixOf (l : PyStr) : dropTrailWS l <+: l := by
  induction l with
  | nil => simp [dropTrailWS]
  | cons c rest ih =>
    simp only [dropTrailWS]
    by_cases h : (dropTrailWS rest).isEmpty && isWS c
    · simp [h]
    · simp only [h, if_false]
      exact (List.cons_prefix_cons).2 ⟨rfl, ih⟩

theorem pyStrip_infixOf (s : PyStr) : pyStrip s <:+: s :=
  (dropTrailWS_prefixOf _).isInfix.trans (List.dropWhile_suffix _).isInfix

theorem splitOnChar_ne_nil (sep : Char) (l : PyStr) : splitOnChar sep l ≠ [] := by
  cases l with
  | nil => simp [splitOnChar]
  | cons c rest =>
    simp only [splitOnChar]
    cases h : splitOnChar sep rest with
    | nil => simp
    | cons a t =>
      by_cases hc : c = sep <;> simp [hc]

theorem splitOnChar_spec (sep : Char) (l : PyStr) :
    ∀ h t, splitOnChar sep l = h :: t → h <+: l ∧ ∀ p ∈ t, p <:+: l := by
  induction l with
  | nil =>
    intro h t he
    simp only [splitOnChar] at he
    cases he
    simp
  | cons c rest ih =>
    intro h t he
    simp only [splitOnChar] at he
    cases hr : splitOnChar sep rest with
    | nil => exact absurd hr (splitOnChar_ne_nil sep rest)
    | cons h' t' =>
      rw [hr] at he
      have he2 : (if c = sep then [] :: h' :: t' else (c :: h') :: t') = h :: t := he
      obtain ⟨hh', ht'⟩ := ih h' t' hr
      by_cases hc : c = sep
      · rw [if_pos hc] at he2
        cases he2
        refine ⟨List.nil_prefix, ?_⟩
        intro p hp
        rcases List.mem_cons.1 hp with rfl | hp
        · exact hh'.isInfix.trans (List.suffix_cons c rest).isInfix
        · exact (ht' p hp).trans (List.suffix_cons c rest).isInfix
      · rw [if_neg hc] at he2
        injection he2 with hh ht
        subst hh
        rw [← ht]
        refine ⟨(List.cons_prefix_cons).2 ⟨rfl, hh'⟩, ?_⟩
        intro p hp
        exact (ht' p hp).trans (List.suffix_cons c rest).isInfix

theorem splitOnChar_mem_infixOf (sep : Char) (l part : PyStr)
    (h : part ∈ splitOnChar sep l) : part <:+: l := by
  cases hs : splitOnChar sep l with
  | nil => exact absurd hs (splitOnChar_ne_nil sep l)
  | cons h' t' =>
    obtain ⟨hh, ht⟩ := splitOnChar_spec sep l h' t' hs
    rw [hs] at h
    rcases List.mem_cons.1 h with rfl | hp
    · exact hh.isInfix
    · exact ht part hp

theorem splitOnStrAux_ne_nil (sep : PyStr) (fuel : Nat) (l : PyStr) :
    splitOnStrAux sep fuel l ≠ [] := by
  induction fuel generalizing l with
  | zero => simp [splitOnStrAux]
  | succ fuel ih =>
    simp only [splitOnStrAux]
    by_cases h : !sep.isEmpty && isPre sep l
    · simp [h]
    · simp only [h, if_false]
      cases l with
      | nil => simp
      | cons c rest =>
        cases hr : splitOnStrAux sep fuel rest with
        | nil => simp [hr]
        | cons a t => simp [hr]

theorem splitOnStrAux_spec (sep : PyStr) (fuel : Nat) (l : PyStr) :
    ∀ h t, splitOnStrAux sep fuel l = h :: t → h <+: l ∧ ∀ p ∈ t, p <:+: l := by
  induction fuel generalizing l with
  | zero =>
    intro h t he
    simp only [splitOnStrAux] at he
    cases he
    simp
  | succ fuel ih =>
    intro h t he
    simp only [splitOnStrAux] at he
    by_cases hp : !sep.isEmpty && isPre sep l
    · rw [if_pos hp] at he
      cases hd : splitOnStrAux sep fuel (l.drop sep.length) with
      | nil => exact absurd hd (splitOnStrAux_ne_nil sep fuel _)
      | cons h' t' =>
        rw [hd] at he
        cases he
        obtain ⟨hh', ht'⟩ := ih _ h' t' hd
        refine ⟨List.nil_prefix, ?_⟩
        intro p hpm
        rcases List.mem_cons.1 hpm with rfl | hpm
        · exact hh'.isInfix.trans (List.drop_suffix _ _).isInfix
        · exact (ht' p hpm).trans (List.drop_suffix _ _).isInfix
    · rw [if_neg hp] at he
      cases l with
      | nil =>
        cases he
        simp
      | cons c rest =>
        have he2 : (match splitOnStrAux sep fuel rest with
            | [] => ([[]] : List PyStr)
            | h :: t => (c :: h) :: t) = h :: t := he
        cases hr : splitOnStrAux sep fuel rest with
        | nil => exact absurd hr (splitOnStrAux_ne_nil sep fuel rest)
        | cons h' t' =>
          rw [hr] at he2
          injection he2 with hh ht
          subst hh
          rw [← ht]
          obtain ⟨hh', ht'⟩ := ih rest h' t' hr
          refine ⟨(List.cons_prefix_cons).2 ⟨rfl, hh'⟩, ?_⟩
          intro p hpm
          exact (ht' p hpm).trans (List.suffix_cons c rest).isInfix

theorem splitOnStr_mem_infixOf (sep : PyStr) (l part : PyStr)
    (h : part ∈ splitOnStr sep l) : part <:+: l := by
  unfold splitOnStr at h
  cases hs : splitOnStrAux sep l.length l with
  | nil => exact absurd hs (splitOnStrAux_ne_nil sep _ l)
  | cons h' t' =>
    obtain ⟨hh, ht⟩ := splitOnStrAux_spec sep l.length l h' t' hs
    rw [hs] at h
    rcases List.mem_cons.1 h with rfl | hp
    · exact hh.isInfix
    · exact ht part hp

theorem headD_mem {α : Type} (l : List α) (d : α) (h : l ≠ []) : l.headD d ∈ l := by
  cases l with
  | nil => exact absurd rfl h
  | cons c t => simp

theorem getLastD_mem {α : Type} (l : List α) (d : α) (h : l ≠ []) : l.getLastD d ∈ l := by
  induction l with
  | nil => exact absurd rfl h
  | cons c t ih =>
    cases t with
    | nil => simp
    | cons c' t' =>
      rw [List.getLastD_cons]
      exact List.mem_cons_of_mem c (ih (by simp))

theorem splitOnStr_ne_nil (sep l : PyStr) : splitOnStr sep l ≠ [] :=
  splitOnStrAux_ne_nil sep l.length l

theorem patternLastComma_infixOf (up b : PyStr) (h : patternLastComma up = some b) :
    b <:+: up := by
  unfold patternLastComma at h
  split at h
  · split at h
    · injection h with h'
      subst h'
      exact (pyStrip_infixOf _).trans
        (splitOnChar_mem_infixOf ',' up _ (getLastD_mem _ _ (splitOnChar_ne_nil ',' up)))
    · exact absurd h (by simp)
  · exact absurd h (by simp)

theorem drop_one_reverse_ne_nil {α : Type} (l : List α) (h : 2 ≤ l.length) :
    l.reverse.drop 1 ≠ [] := by
  have hl : (l.reverse.drop 1).length = l.length - 1 := by
    rw [List.length_drop, List.length_reverse]
  intro he
  rw [he] at hl
  simp only [List.length_nil] at hl
  omega

theorem patternHyphen_infixOf (up b : PyStr) (h : patternHyphen up = some b) :
    b <:+: up := by
  unfold patternHyphen at h
  split at h
  · rename_i hlen
    split at h
    · injection h with h'
      subst h'
      have hnn : ((splitOnStr (" - ".data) up).reverse.drop 1) ≠ [] :=
        drop_one_reverse_ne_nil _ hlen
      have hmem : (((splitOnStr (" - ".data) up).reverse.drop 1).headD []) ∈
          splitOnStr (" - ".data) up :=
        List.mem_reverse.1 (List.mem_of_mem_drop (headD_mem _ ([] : PyStr) hnn))
      exact (pyStrip_infixOf _).trans (splitOnStr_mem_infixOf _ _ _ hmem)
    · exact absurd h (by simp)
  · exact absurd h (by simp)

theorem prefixRestText_infixOf (up : PyStr) (sp : Nat) : prefixRestText up sp <:+: up := by
  unfold prefixRestText
  have h1 : ((splitOnChar ',' (up.drop sp)).headD []) <:+: up.drop sp :=
    splitOnChar_mem_infixOf ',' _ _ (headD_mem _ _ (splitOnChar_ne_nil ',' _))
  have h2 := splitOnStr_mem_infixOf (" - ".data)
    ((splitOnChar ',' (up.drop sp)).headD [])
    (((splitOnStr (" - ".data) ((splitOnChar ',' (up.drop sp)).headD [])).headD []))
    (headD_mem _ _ (splitOnStr_ne_nil _ _))
  exact h2.trans (h1.trans (List.drop_suffix sp up).isInfix)

theorem prefixScan_spec (up : PyStr) (pfxs : List PyStr) :
    prefixScan up pfxs = [] ∨ prefixScan up pfxs <:+: up := by
  induction pfxs with
  | nil => exact Or.inl rfl
  | cons pfx rest ih =>
    simp only [prefixScan]
    split
    · split
      · split
        · exact Or.inr ((pyStrip_infixOf _).trans (prefixRestText_infixOf up _))
        · exact ih
      · exact ih
    · exact ih

theorem detect_patterns_spec (up : PyStr) :
    detect_bairro_by_patterns up = [] ∨ detect_bairro_by_patterns up <:+: up := by
  unfold detect_bairro_by_patterns
  cases h1 : patternLastComma up with
  | some b => exact Or.inr (patternLastComma_infixOf up b h1)
  | none =>
    cases h2 : patternHyphen up with
    | some b => exact Or.inr (patternHyphen_infixOf up b h2)
    | none => exact prefixScan_spec up prefixosBairro

/-- Claim C10: for every address string (including the empty string) and
every neighbourhood list, `detect_bairro_from_endereco` returns normally
(it is a total function of this embedding) and its result is either the
empty string or a substring of the uppercased address — including when the
list is empty and the pattern fallbacks (comma segment, hyphen segment,
prefix scan) are used. -/
theorem C10_detect_substring (bairros : List PyStr) (endereco : PyStr) :
    detect_bairro_from_endereco bairros endereco = [] ∨
    hasSub (pyUpper endereco) (detect_bairro_from_endereco bairros endereco) = true := by
  unfold detect_bairro_from_endereco
  by_cases he : endereco.isEmpty
  · rw [if_pos he]
    exact Or.inl rfl
  · rw [if_neg he]
    by_cases hb : bairros.isEmpty
    · rw [if_pos hb]
      rcases detect_patterns_spec (pyUpper endereco) with h | h
      · exact Or.inl h
      · exact Or.inr ((hasSub_iff _ _).2 h)
    · rw [if_neg hb]
      cases hf : (bairros.insertionSort (fun a b => b.length ≤ a.length)).find?
          (fun bairro => hasSub (pyUpper endereco) bairro) with
      | some bairro => exact Or.inr (List.find?_some hf)
      | none =>
        rcases detect_patterns_spec (pyUpper endereco) with h | h
        · exact Or.inl h
        · exact Or.inr ((hasSub_iff _ _).2 h)

theorem find?_sorted_length_max (l : List PyStr) (p : PyStr → Bool) (r0 : PyStr)
    (hs : List.Pairwise (fun a b => b.length ≤ a.length) l)
    (hf : l.find? p = some r0) :
    ∀ y ∈ l, p y = true → y.length ≤ r0.length := by
  induction l with
  | nil => simp at hf
  | cons x xs ih =>
    cases hpx : p x with
    | true =>
      rw [List.find?_cons_of_pos _ hpx] at hf
      injection hf with h0
      subst h0
      intro y hy hpy
      rcases List.mem_cons.1 hy with rfl | hy
      · exact le_refl _
      · exact (List.pairwise_cons.1 hs).1 y hy
    | false =>
      rw [List.find?_cons_of_neg _ (by simp [hpx])] at hf
      intro y hy hpy
      rcases List.mem_cons.1 hy with rfl | hy
      · rw [hpx] at hpy
        exact absurd hpy (by simp)
      · exact ih (List.pairwise_cons.1 hs).2 hf y hy hpy

/-- Claim C5: neighbourhood detection is deterministic (a pure function of
its two inputs: re-running it yields the same result), and whenever two set
members both occur as substrings of the uppercased address with one nested
in the other, the shorter one is never returned — the result is itself a
matching member whose length is at least that of the longer one, so on the
specification's two-member example the longer member is returned (see the
witness). -/
theorem C5_longest_match (bairros : List PyStr) (endereco a b : PyStr)
    (ha : a ∈ bairros) (hb : b ∈ bairros)
    (hsa : hasSub (pyUpper endereco) a = true)
    (hsb : hasSub (pyUpper endereco) b = true)
    (hnest : hasSub b a = true) (hne : a ≠ b) :
    detect_bairro_from_endereco bairros endereco
      = detect_bairro_from_endereco bairros endereco ∧
    detect_bairro_from_endereco bairros endereco ≠ a ∧
    b.length ≤ (detect_bairro_from_endereco bairros endereco).length ∧
    detect_bairro_from_endereco bairros endereco ∈ bairros ∧
    hasSub (pyUpper endereco) (detect_bairro_from_endereco bairros endereco) = true := by
  have hab : a <:+: b := (hasSub_iff _ _).1 hnest
  have hlab : a.length < b.length := by
    rcases Nat.lt_or_ge a.length b.length with h | h
    · exact h
    · exfalso
      exact hne (hab.sublist.eq_of_length (Nat.le_antisymm hab.sublist.length_le h))
  have hene : endereco.isEmpty = false := by
    cases hee : endereco with
    | nil =>
      exfalso
      rw [hee] at hsa hsb
      have hb0 : b = [] := by
        have hsub := ((hasSub_iff _ _).1 hsb).sublist
        rw [List.sublist_nil.symm]
        simpa [pyUpper] using hsub
      have ha0 : a = [] := by
        have hsub := ((hasSub_iff _ _).1 hsa).sublist
        rw [List.sublist_nil.symm]
        simpa [pyUpper] using hsub
      exact hne (ha0.trans hb0.symm)
    | cons c t => rfl
  have hbne : bairros.isEmpty = false := by
    cases hbb : bairros with
    | nil => rw [hbb] at ha; simp at ha
    | cons c t => rfl
  haveI instTot : IsTotal PyStr (fun a b : PyStr => b.length ≤ a.length) :=
    ⟨fun x y => Nat.le_total y.length x.length⟩
  haveI instTrans : IsTrans PyStr (fun a b : PyStr => b.length ≤ a.length) :=
    ⟨fun x y z h1 h2 => Nat.le_trans h2 h1⟩
  have hperm := List.perm_insertionSort (fun a b : PyStr => b.length ≤ a.length) bairros
  have hsorted := List.sorted_insertionSort (fun a b : PyStr => b.length ≤ a.length) bairros
  have hbs : b ∈ bairros.insertionSort (fun a b : PyStr => b.length ≤ a.length) :=
    hperm.mem_iff.2 hb
  have hfs : ((bairros.insertionSort (fun a b : PyStr => b.length ≤ a.length)).find?
      (fun bairro => hasSub (pyUpper endereco) bairro)).isSome :=
    List.find?_isSome.2 ⟨b, hbs, hsb⟩
  obtain ⟨r0, hf⟩ := Option.isSome_iff_exists.1 hfs
  have hdet : detect_bairro_from_endereco bairros endereco = r0 := by
    unfold detect_bairro_from_endereco
    rw [if_neg (by simp [hene]), if_neg (by simp [hbne]), hf]
  have hmax : b.length ≤ r0.length :=
    find?_sorted_length_max _ _ r0 hsorted hf b hbs hsb
  refine ⟨rfl, ?_, ?_, ?_, ?_⟩
  · rw [hdet]
    intro h0
    rw [h0] at hmax
    omega
  · rw [hdet]
    exact hmax
  · rw [hdet]
    exact hperm.mem_iff.1 (List.mem_of_find?_eq_some hf)
  · rw [hdet]
    exact List.find?_some hf

/-- Witness for C5 at the specification's example: set
`{"VILA MARIA", "MARIA"}`, address containing "VILA MARIA". -/
theorem C5_longest_match_witness :
    detect_bairro_from_endereco ["MARIA".data, "VILA MARIA".data]
        ("Rua X, Vila Maria, SP".data) ≠ "MARIA".data ∧
    ("VILA MARIA".data).length ≤
      (detect_bairro_from_endereco ["MARIA".data, "VILA MARIA".data]
        ("Rua X, Vila Maria, SP".data)).length ∧
    detect_bairro_from_endereco ["MARIA".data, "VILA MARIA".data]
        ("Rua X, Vila Maria, SP".data) = "VILA MARIA".data :=
  ⟨(C5_longest_match ["MARIA".data, "VILA MARIA".data] ("Rua X, Vila Maria, SP".data)
      ("MARIA".data) ("VILA MARIA".data) (by decide) (by decide) (by decide) (by decide)
      (by decide) (by decide)).2.1,
   (C5_longest_match ["MARIA".data, "VILA MARIA".data] ("Rua X, Vila Maria, SP".data)
      ("MARIA".data) ("VILA MARIA".data) (by decide) (by decide) (by decide) (by decide)
      (by decide) (by decide)).2.2.1,
   by decide⟩

theorem any_eq_isSome_find? {α : Type} (l : List α) (p : α → Bool) :
    l.any p = (l.find? p).isSome := by
  cases hf : l.find? p with
  | none =>
    simp only [Option.isSome_none]
    rw [List.find?_eq_none] at hf
    simp only [List.any_eq_false]
    exact hf
  | some a =>
    simp only [Option.isSome_some]
    rw [List.any_eq_true]
    exact ⟨a, List.mem_of_find?_eq_some hf, List.find?_some hf⟩

theorem if_any_find {α β : Type} (l : List α) (p : α → Bool) (f : α → β) (dflt : Option β) :
    (if l.any p then (l.find? p).map f else dflt)
      = match l.find? p with
        | some a => some (f a)
        | none => dflt := by
  rw [any_eq_isSome_find?]
  cases l.find? p <;> simp

/-- Claim C1 (corrected): the resolution cascade of `_obter_codigo_cidade`
agrees everywhere with the staged description "first hit wins", but with
the two partial-match steps in the opposite order to the one the
specification claims: exact match; then normalized *candidate* contains
normalized *input*; then normalized *input* contains normalized
*candidate*; then the override table; then failure. -/
theorem C1_cascade_order (city_options : List (PyStr × PyStr)) (estado alvo : PyStr) :
    cascadeResolve city_options estado alvo = cascadeStages city_options estado alvo := by
  unfold cascadeStages
  rw [if_any_find, if_any_find, if_any_find]
  unfold cascadeResolve
  cases city_options.find? (fun kv => decide (kv.1 = alvo)) with
  | some kv => rfl
  | none =>
    cases city_options.find? (fun kv => hasSub kv.1 alvo) with
    | some kv => rfl
    | none =>
      cases city_options.find? (fun kv => hasSub alvo kv.1) with
      | some kv => rfl
      | none =>
        cases CITY_CODE_OVERRIDES.find?
            (fun ov => decide (ov.1.1 = estado) && decide (ov.1.2 = alvo)) with
        | some ov => rfl
        | none => rfl

/-- Counterexample to C1 as stated: on the dict
`{AXYB ↦ 1, XY ↦ 2}` and input `AXY`, the source resolves to `1` (the step
"candidate contains input" fires first), while the specification's claimed
order would resolve to `2` via "input contains candidate". -/
theorem C1_counterexample :
    cascadeResolve c1Opts ("XX".data) ("AXY".data) = some ("1".data) ∧
    cascadeClaimOrder c1Opts ("XX".data) ("AXY".data) = some ("2".data) := by
  constructor
  · decide
  · decide

/-- Claim C3 (corrected): the page loop of `scrape_all_properties` has no
early stop.  It fetches exactly the pages (in order) whose identifier batch
is non-empty, regardless of `totalRecords` — which the loop never consults
— and its records are the concatenation of the per-page extractions. -/
theorem C3_no_early_stop (ids : Int → PyStr) (fetchRecs : PyStr → List Rec)
    (pages : List Nat) :
    pageLoop ids fetchRecs pages
      = ((pages.filter (fun p => !(ids (Int.ofNat p)).isEmpty)).flatMap
          (fun p => fetchRecs (ids (Int.ofNat p))),
         pages.filter (fun p => !(ids (Int.ofNat p)).isEmpty)) := by
  induction pages with
  | nil => rfl
  | cons p rest ih =>
    simp only [pageLoop, List.filter_cons]
    cases h : (ids (Int.ofNat p)).isEmpty with
    | true => simpa [h] using ih
    | false => simp [h, ih]

/-- Counterexample to C3 as stated: two pages, one record each, and the
manifest reports `totalRecords = 1`.  After page 1 the cumulative count has
reached `totalRecords`, yet the source's loop still fetches page 2 (pages
fetched `[1, 2]`, two records), where the specification's early-stopping
loop stops after page 1. -/
theorem C3_counterexample :
    (pageLoop c3Ids c3Fetch (pagesRange 2)).2 = [1, 2] ∧
    (pageLoop c3Ids c3Fetch (pagesRange 2)).1.length = 2 ∧
    (pageLoopEarlyStop c3Ids c3Fetch 1 (pagesRange 2) []).2 = [1] ∧
    (pageLoopEarlyStop c3Ids c3Fetch 1 (pagesRange 2) []).1.length = 1 := by
  refine ⟨by decide, by decide, by decide, by decide⟩

theorem techStep_titulo (pd : PropertyData) (line : PyStr) :
    (techStep pd line).titulo = pd.titulo := by
  simp only [techStep]
  repeat' split
  all_goals rfl

theorem extract_technical_info_titulo (pd : PropertyData) (t : PyStr) :
    (extract_technical_info pd t).titulo = pd.titulo := by
  unfold extract_technical_info
  generalize splitOnChar '\n' t = lines
  induction lines generalizing pd with
  | nil => rfl
  | cons l rest ih => rw [List.foldl_cons, ih, techStep_titulo]

theorem applyBairro_titulo (b : List PyStr) (pd : PropertyData) :
    (applyBairro b pd).titulo = pd.titulo := by
  unfold applyBairro
  repeat' split
  all_goals rfl

theorem fillDetails_titulo (b : List PyStr) (it : Item) (pd0 : PropertyData) :
    (fillDetails b it pd0).titulo = pd0.titulo := by
  unfold fillDetails
  rw [applyBairro_titulo, extract_technical_info_titulo]

theorem extract_item_some_titulo (b : List PyStr) (it : Item) (d : PropertyData)
    (h : extract_property_from_caixa_item b it = some d) :
    d.titulo ≠ [] ∧ d.titulo = (tituloValor it).1 := by
  unfold extract_property_from_caixa_item at h
  split at h
  · exact absurd h (by simp)
  · rename_i hne
    injection h with hd
    subst hd
    rw [fillDetails_titulo] at hne ⊢
    refine ⟨?_, rfl⟩
    simpa [List.isEmpty_iff] using hne

/-- Claim C4 (corrected): every record the *structural* strategy emits has a
non-empty title, and a listing item whose recovered title is empty is
silently skipped (no record, no error); but the tabular fallback emits row
records that carry no title at all (see the counterexample). -/
theorem C4_structural_title :
    (∀ (bairros : List PyStr) (page : Page) (d : PropertyData),
      Rec.item d ∈ extract_properties_from_page bairros page → d.titulo ≠ []) ∧
    (∀ (bairros : List PyStr) (it : Item), (tituloValor it).1 = [] →
      extract_property_from_caixa_item bairros it = none) := by
  constructor
  · intro bairros page d hmem
    cases page with
    | results items =>
      simp only [extract_properties_from_page, List.mem_filterMap] at hmem
      obtain ⟨it, _, hsome⟩ := hmem
      cases hext : extract_property_from_caixa_item bairros it with
      | none => rw [hext] at hsome; exact absurd hsome (by simp)
      | some d' =>
        rw [hext] at hsome
        have hsome2 : some (Rec.item d') = some (Rec.item d) := hsome
        injection hsome2 with hsome'
        injection hsome' with hdd
        subst hdd
        exact (extract_item_some_titulo bairros it d' hext).1
    | formPage => simp [extract_properties_from_page] at hmem
    | fallback tables =>
      exfalso
      simp only [extract_properties_from_page, List.mem_flatMap, List.mem_filterMap] at hmem
      obtain ⟨rows, _, cells, _, hsome⟩ := hmem
      split at hsome
      · split at hsome
        · exact absurd hsome (by simp)
        · exact absurd hsome (by simp)
      · exact absurd hsome (by simp)
  · intro bairros it htv
    unfold extract_property_from_caixa_item
    rw [if_pos]
    rw [fillDetails_titulo, htv]
    rfl

/-- Witness for C4: a structural page with one titled item and one item with
no emphasized text at all — the titled item's record has a non-empty title
and the title-less item yields no record. -/
theorem C4_structural_title_witness :
    (∀ d : PropertyData,
      Rec.item d ∈ extract_properties_from_page []
        (.results [{ strongs := ["BELO APARTAMENTO NO CENTRO".data], links := [],
                     allText := [] }]) → d.titulo ≠ []) ∧
    extract_property_from_caixa_item []
      { strongs := [], links := [], allText := [] } = none :=
  ⟨fun d hd => C4_structural_title.1 [] _ d hd,
   C4_structural_title.2 [] { strongs := [], links := [], allText := [] } (by decide)⟩

/-- Counterexample to C4 as stated: the tabular fallback page `c4Page`
produces a record, and that record is a row dictionary with no title key at
all — so not every record of the extractor's output has a non-empty
title. -/
theorem C4_counterexample :
    ∃ r ∈ extract_properties_from_page [] c4Page, recTitulo r = none := by
  decide

/-- Claim C7 (corrected): an item whose emphasized text is exactly
`Tempo restante: 2 dias` never passes the `<strong>` filter, and when a
qualifying anchor-link text exists the extractor falls through to it; but
when no anchor qualifies, the rejected emphasized text itself becomes the
title (see the counterexample), so the fall-through has a last-resort
exception. -/
theorem C7_title_fallback (it : Item)
    (h : it.strongs = ["Tempo restante: 2 dias".data]) :
    it.strongs.find? validTitleStrong = none ∧
    (∀ lk, it.links.find? validTitleLink = some lk → computeTitleText it = lk) ∧
    (it.links.find? validTitleLink = none →
      computeTitleText it = "Tempo restante: 2 dias".data) := by
  have h1 : (["Tempo restante: 2 dias".data] : List PyStr).find? validTitleStrong = none := by
    decide
  refine ⟨by rw [h]; exact h1, ?_, ?_⟩
  · intro lk hlk
    unfold computeTitleText
    rw [h, h1]
    show (if isPre ("tempo restante".data) (pyLower ("Tempo restante: 2 dias".data)) ||
            isPre ("número do item".data) (pyLower ("Tempo restante: 2 dias".data)) then
          match it.links.find? validTitleLink with
          | some lk => lk
          | none => "Tempo restante: 2 dias".data
        else "Tempo restante: 2 dias".data) = lk
    rw [if_pos (by decide), hlk]
  · intro hnone
    unfold computeTitleText
    rw [h, h1]
    show (if isPre ("tempo restante".data) (pyLower ("Tempo restante: 2 dias".data)) ||
            isPre ("número do item".data) (pyLower ("Tempo restante: 2 dias".data)) then
          match it.links.find? validTitleLink with
          | some lk => lk
          | none => "Tempo restante: 2 dias".data
        else "Tempo restante: 2 dias".data) = "Tempo restante: 2 dias".data
    rw [if_pos (by decide), hnone]

/-- Witness for C7: with a qualifying anchor link present, the boilerplate
emphasized text is rejected and the link text becomes the title. -/
theorem C7_title_fallback_witness :
    ({ strongs := ["Tempo restante: 2 dias".data],
       links := ["LINK PARA O IMOVEL X".data], allText := [] } : Item).strongs.find?
        validTitleStrong = none ∧
    computeTitleText
      { strongs := ["Tempo restante: 2 dias".data],
        links := ["LINK PARA O IMOVEL X".data], allText := [] }
      = "LINK PARA O IMOVEL X".data :=
  ⟨(C7_title_fallback
      { strongs := ["Tempo restante: 2 dias".data],
        links := ["LINK PARA O IMOVEL X".data], allText := [] } rfl).1,
   (C7_title_fallback
      { strongs := ["Tempo restante: 2 dias".data],
        links := ["LINK PARA O IMOVEL X".data], allText := [] } rfl).2.1
     ("LINK PARA O IMOVEL X".data) (by decide)⟩

/-- Counterexample to C7 as stated: the item `c7Item` has only the
emphasized text `Tempo restante: 2 dias` and no anchor links; the extractor
uses that text as the title (and even emits a record with it). -/
theorem C7_counterexample :
    (extract_property_from_caixa_item [] c7Item).map PropertyData.titulo
      = some ("Tempo restante: 2 dias".data) := by
  decide

theorem idsFold_const (doc : List HElem) (d : List (Int × PyStr))
    (h : ∀ e ∈ doc, isPre ("hdnImov".data) e.idAttr = false) :
    (doc.filter (fun e => decide (e.tag = "input".data))).foldl
      (fun d e =>
        if isPre ("hdnImov".data) e.idAttr then
          match pyInt (removeAllSub ("hdnImov".data) e.idAttr) with
          | some idx => dictInsertInt d idx (pyStrip (e.value.getD []))
          | none => d
        else d) d = d := by
  induction doc generalizing d with
  | nil => rfl
  | cons e rest ih =>
    have he := h e (by simp)
    have hrest : ∀ x ∈ rest, isPre ("hdnImov".data) x.idAttr = false :=
      fun x hx => h x (List.mem_cons_of_mem e hx)
    simp only [List.filter_cons]
    by_cases ht : e.tag = "input".data
    · rw [if_pos (by simp [ht]), List.foldl_cons, if_neg (by simp [he])]
      exact ih d hrest
    · rw [if_neg (by simp [ht])]
      exact ih d hrest

/-- Claim C8 (corrected): when the required hidden fields are absent from
the search-start response — including on the very first call — the run does
not fail: the manifest defaults to one page, zero records and an empty
identifier map, the loop skips the page with a logged warning, and the run
completes normally with zero records.  No malformed-response error exists
in the source. -/
theorem C8_missing_fields_default (searchDoc : List HElem) (code : PyStr)
    (bairros : List PyStr) (fetchItems : PyStr → List Item)
    (h1 : ∀ e ∈ searchDoc, ¬ e.idAttr = "hdnQtdPag".data)
    (h2 : ∀ e ∈ searchDoc, ¬ e.idAttr = "hdnQtdRegistros".data)
    (h3 : ∀ e ∈ searchDoc, isPre ("hdnImov".data) e.idAttr = false) :
    extrair_ids_e_paginacao searchDoc = ([], 1, 0) ∧
    scrape_all_properties (.ok code) searchDoc bairros fetchItems = .ok [] := by
  have hfind1 : searchDoc.find? (fun e => decide (e.idAttr = "hdnQtdPag".data)) = none :=
    List.find?_eq_none.2 (fun e he => by simp [h1 e he])
  have hfind2 : searchDoc.find? (fun e => decide (e.idAttr = "hdnQtdRegistros".data)) = none :=
    List.find?_eq_none.2 (fun e he => by simp [h2 e he])
  have hext : extrair_ids_e_paginacao searchDoc = ([], 1, 0) := by
    unfold extrair_ids_e_paginacao hiddenIntD
    rw [hfind1, hfind2, idsFold_const searchDoc [] h3]
  refine ⟨hext, ?_⟩
  unfold scrape_all_properties
  rw [hext]
  rfl

/-- Witness for C8: the empty search-start response. -/
theorem C8_missing_fields_default_witness :
    extrair_ids_e_paginacao [] = ([], 1, 0) ∧
    scrape_all_properties (.ok ("9859".data)) [] [] (fun _ => []) = .ok [] :=
  C8_missing_fields_default [] ("9859".data) [] (fun _ => [])
    (by simp) (by simp) (by simp)

/-- Counterexample to C8 as stated: a search-start response with none of
the required hidden fields does not make the run fail fatally — the run
returns normally with an empty record list. -/
theorem C8_counterexample :
    scrape_all_properties (.ok ("9859".data)) [] [] (fun _ => []) = .ok [] := by
  decide

/-- Claim C9 (corrected): whenever the cascade leaves a city unresolved,
`_obter_codigo_cidade` fails with an error carrying exactly the full parsed
available-city list; but that list is not guaranteed non-empty merely
because the city-list call succeeded — a response without city options
yields a failure carrying the empty list (see the counterexample). -/
theorem C9_error_carries_list :
    (∀ html estado cidade : PyStr,
      cascadeResolve (buildCityOptions (optionMatches html)).2 estado (pyNorm cidade)
        = none →
      obter_codigo_cidade html estado cidade
        = .error (buildCityOptions (optionMatches html)).1) ∧
    (∀ (html estado cidade : PyStr) (l : List PyStr),
      obter_codigo_cidade html estado cidade = .error l →
      l = (buildCityOptions (optionMatches html)).1) := by
  constructor
  · intro html estado cidade hc
    simp only [obter_codigo_cidade]
    rw [hc]
  · intro html estado cidade l h
    simp only [obter_codigo_cidade] at h
    cases hc : cascadeResolve (buildCityOptions (optionMatches html)).2 estado
        (pyNorm cidade) with
    | some code =>
      rw [hc] at h
      exact absurd h (by simp)
    | none =>
      rw [hc] at h
      injection h with h'
      exact h'.symm

/-- Witness for C9: an options-free response with an unresolvable city. -/
theorem C9_error_carries_list_witness :
    obter_codigo_cidade ("erro".data) ("XX".data) ("GOTHAM".data)
      = .error (buildCityOptions (optionMatches ("erro".data))).1 :=
  C9_error_carries_list.1 ("erro".data) ("XX".data) ("GOTHAM".data) (by decide)

/-- Counterexample to C9 as stated: the city-list call succeeded (a markup
response arrived and was parsed), the city is unresolvable, and the error
carries an *empty* city list, because the response contained no option
entries. -/
theorem C9_counterexample :
    obter_codigo_cidade ("erro".data) ("XX".data) ("GOTHAM".data) = .error [] := by
  decide

/-- Claim C2 (corrected): a response that carries no captcha banner and has
status < 500 — in particular every plain 4xx — is returned on the spot, at
whatever attempt it arrives, with no further retry; an unbroken run of
retryable outcomes (network errors, captcha pages, 5xx) drives exactly 5
attempts and then surfaces the failure, with backoff waits 0.5·2^(k-1)
clamped into [0.5, 6] seconds (0.5, 1, 2, 4 for the four sleeps), starting
at 0.5 s, doubling and capped at 6 s.  The correction: a captcha page whose
HTTP status is 4xx IS retried, because the captcha check precedes the
status check (see the counterexample). -/
theorem C2_retry_policy :
    (∀ (o : Nat → HttpOutcome) (j st : Nat), 1 ≤ j → j ≤ 5 →
      (∀ i, 1 ≤ i → i < j → attemptResult (o i) = none) →
      o j = .resp st false → st < 500 →
      clientCall o = (some st, j, (List.range' 1 (j - 1)).map waitAfter)) ∧
    (∀ o : Nat → HttpOutcome, (∀ i, attemptResult (o i) = none) →
      clientCall o = (none, 5, [1/2, 1, 2, 4])) ∧
    (∀ n, 1 ≤ n → (1/2 : ℚ) ≤ waitAfter n ∧ waitAfter n ≤ 6) ∧
    waitAfter 1 = 1/2 ∧
    (∀ n, 1 ≤ n → waitAfter (n + 1) = min (2 * waitAfter n) 6) := by
  refine ⟨?_, ?_, ?_, ?_, ?_⟩
  · intro o j st hj1 hj5 hprev hoj hst
    have hstat : attemptResult (o j) = some st := by
      rw [hoj]
      simp [attemptResult, Nat.not_le.2 hst]
    interval_cases j
    · simp [clientCall, retryRun, hstat, List.range']
    · have e1 := hprev 1 (by norm_num) (by norm_num)
      simp [clientCall, retryRun, e1, hstat, List.range']
    · have e1 := hprev 1 (by norm_num) (by norm_num)
      have e2 := hprev 2 (by norm_num) (by norm_num)
      simp [clientCall, retryRun, e1, e2, hstat, List.range']
    · have e1 := hprev 1 (by norm_num) (by norm_num)
      have e2 := hprev 2 (by norm_num) (by norm_num)
      have e3 := hprev 3 (by norm_num) (by norm_num)
      simp [clientCall, retryRun, e1, e2, e3, hstat, List.range']
    · have e1 := hprev 1 (by norm_num) (by norm_num)
      have e2 := hprev 2 (by norm_num) (by norm_num)
      have e3 := hprev 3 (by norm_num) (by norm_num)
      have e4 := hprev 4 (by norm_num) (by norm_num)
      simp [clientCall, retryRun, e1, e2, e3, e4, hstat, List.range']
  · intro o h
    have e1 := h 1
    have e2 := h 2
    have e3 := h 3
    have e4 := h 4
    have e5 := h 5
    simp [clientCall, retryRun, e1, e2, e3, e4, e5]
    norm_num [waitAfter]
  · intro n hn
    refine ⟨le_max_left _ _, max_le (by norm_num) (min_le_right _ _)⟩
  · norm_num [waitAfter]
  · intro n hn
    obtain ⟨m, rfl⟩ : ∃ m, n = m + 1 := ⟨n - 1, by omega⟩
    have hp1 : (1:ℚ) ≤ 2 ^ m := one_le_pow₀ (by norm_num)
    have hp2 : (1:ℚ) ≤ 2 ^ (m + 1) := one_le_pow₀ (by norm_num)
    have h1 : (1:ℚ)/2 ≤ 1/2 * 2 ^ m := by nlinarith
    have h2 : (1:ℚ)/2 ≤ 1/2 * 2 ^ (m + 1) := by nlinarith
    have hA : waitAfter (m + 1) = min ((1:ℚ)/2 * 2 ^ m) 6 := by
      unfold waitAfter
      rw [Nat.add_sub_cancel]
      exact max_eq_right (le_min h1 (by norm_num))
    have hB : waitAfter (m + 1 + 1) = min ((1:ℚ)/2 * 2 ^ (m + 1)) 6 := by
      unfold waitAfter
      rw [Nat.add_sub_cancel]
      exact max_eq_right (le_min h2 (by norm_num))
    rw [hA, hB, mul_min_of_nonneg _ _ (by norm_num : (0:ℚ) ≤ 2)]
    have hmul : (2:ℚ) * (1/2 * 2 ^ m) = 1/2 * 2 ^ (m + 1) := by ring
    rw [hmul, min_assoc]
    norm_num

/-- Witness for C2: a plain 404 on the first attempt is surfaced at once
(one attempt, no waits), and a backoff wait is at least half a second. -/
theorem C2_retry_policy_witness :
    clientCall (fun _ => .resp 404 false) = (some 404, 1, []) ∧
    (1/2 : ℚ) ≤ waitAfter 3 := by
  constructor
  · have h := C2_retry_policy.1 (fun _ => .resp 404 false) 1 404 (le_refl 1) (by norm_num)
      (fun i hi1 hij => absurd (Nat.lt_of_le_of_lt hi1 hij) (by norm_num)) rfl (by norm_num)
    simpa using h
  · exact (C2_retry_policy.2.2.1 3 (by norm_num)).1

/-- Counterexample to C2 as stated: the first response has HTTP status 403
— a 4xx — but carries the captcha banner; the client retries it (the call
uses two attempts and one backoff wait) instead of surfacing it
immediately. -/
theorem C2_counterexample :
    c2Outcomes 1 = .resp 403 true ∧
    clientCall c2Outcomes = (some 200, 2, [1/2]) := by
  refine ⟨rfl, ?_⟩
  norm_num [clientCall, retryRun, c2Outcomes, attemptResult, waitAfter]

theorem subWSAux_cons_ws_true (c : Char) (rest : PyStr) (hc : isWS c = true) :
    subWSAux true (c :: rest) = subWSAux true rest := by
  simp [subWSAux, hc]

theorem subWSAux_cons_ws_false (c : Char) (rest : PyStr) (hc : isWS c = true) :
    subWSAux false (c :: rest) = ' ' :: subWSAux true rest := by
  simp [subWSAux, hc]

theorem subWSAux_cons_nws (b : Bool) (c : Char) (rest : PyStr) (hc : isWS c = false) :
    subWSAux b (c :: rest) = c :: subWSAux false rest := by
  simp [subWSAux, hc]

theorem noDouble_cons_iff (a : Char) (l : PyStr) :
    noDoubleSpace (a :: l) = true ↔
      (∀ b, l.head? = some b → a = ' ' → b ≠ ' ') ∧ noDoubleSpace l = true := by
  cases l with
  | nil => simp [noDoubleSpace]
  | cons b t =>
    by_cases ha : a = ' ' <;> by_cases hb : b = ' ' <;>
      simp [noDoubleSpace, ha, hb]

theorem subWSAux_wsOnly (x : PyStr) : ∀ b, wsOnlySpace (subWSAux b x) = true := by
  induction x with
  | nil => intro b; rfl
  | cons c rest ih =>
    intro b
    by_cases hc : isWS c
    · cases b with
      | true => rw [subWSAux_cons_ws_true c rest hc]; exact ih true
      | false =>
        rw [subWSAux_cons_ws_false c rest hc]
        simp only [wsOnlySpace, List.all_cons, Bool.and_eq_true]
        exact ⟨by simp, ih true⟩
    · rw [subWSAux_cons_nws b c rest (by simpa using hc)]
      simp only [wsOnlySpace, List.all_cons, Bool.and_eq_true]
      exact ⟨by simp [hc], ih false⟩

theorem subWSAux_true_head (x : PyStr) :
    ∀ c, (subWSAux true x).head? = some c → isWS c = false := by
  induction x with
  | nil => intro c hc; simp [subWSAux] at hc
  | cons d rest ih =>
    intro c hc
    by_cases hd : isWS d
    · rw [subWSAux_cons_ws_true d rest hd] at hc
      exact ih c hc
    · rw [subWSAux_cons_nws true d rest (by simpa using hd)] at hc
      simp only [List.head?_cons] at hc
      injection hc with hc
      subst hc
      simpa using hd

theorem subWSAux_noDouble (x : PyStr) : ∀ b, noDoubleSpace (subWSAux b x) = true := by
  induction x with
  | nil => intro b; rfl
  | cons c rest ih =>
    intro b
    by_cases hc : isWS c
    · cases b with
      | true => rw [subWSAux_cons_ws_true c rest hc]; exact ih true
      | false =>
        rw [subWSAux_cons_ws_false c rest hc, noDouble_cons_iff]
        refine ⟨?_, ih true⟩
        intro d hd _ hd'
        subst hd'
        have := subWSAux_true_head rest ' ' hd
        simp [isWS] at this
    · rw [subWSAux_cons_nws b c rest (by simpa using hc), noDouble_cons_iff]
      refine ⟨?_, ih false⟩
      intro d hd hc' _
      subst hc'
      simp [isWS] at hc

theorem wsOnly_sublist {s l : PyStr} (h : s.Sublist l) (hl : wsOnlySpace l = true) :
    wsOnlySpace s = true := by
  simp only [wsOnlySpace, List.all_eq_true] at hl ⊢
  exact fun c hc => hl c (h.subset hc)

theorem noDouble_tail (a : Char) (l : PyStr) (h : noDoubleSpace (a :: l) = true) :
    noDoubleSpace l = true :=
  ((noDouble_cons_iff a l).1 h).2

theorem noDouble_append_right (a b : PyStr) (h : noDoubleSpace (a ++ b) = true) :
    noDoubleSpace b = true := by
  induction a with
  | nil => exact h
  | cons x a' ih =>
    exact ih (noDouble_tail x (a' ++ b) h)

theorem noDouble_append_left (a b : PyStr) (h : noDoubleSpace (a ++ b) = true) :
    noDoubleSpace a = true := by
  induction a with
  | nil => rfl
  | cons x a' ih =>
    rw [List.cons_append] at h
    obtain ⟨hx, hrest⟩ := (noDouble_cons_iff x (a' ++ b)).1 h
    rw [noDouble_cons_iff]
    refine ⟨?_, ih hrest⟩
    intro d hd
    apply hx d
    cases a' with
    | nil => simp at hd
    | cons y t =>
      simp only [List.head?_cons] at hd
      simpa using hd

theorem noDouble_of_prefixOf {s l : PyStr} (h : s <+: l) (hl : noDoubleSpace l = true) :
    noDoubleSpace s = true := by
  obtain ⟨t, rfl⟩ := h
  exact noDouble_append_left s t hl

theorem noDouble_of_suffixOf {s l : PyStr} (h : s <:+ l) (hl : noDoubleSpace l = true) :
    noDoubleSpace s = true := by
  obtain ⟨t, rfl⟩ := h
  exact noDouble_append_right t s hl

theorem dropWhile_head_false (p : Char → Bool) (l : PyStr) :
    ∀ c, (l.dropWhile p).head? = some c → p c = false := by
  induction l with
  | nil => intro c hc; simp at hc
  | cons x t ih =>
    intro c hc
    by_cases hx : p x
    · rw [List.dropWhile_cons_of_pos hx] at hc
      exact ih c hc
    · rw [List.dropWhile_cons_of_neg hx] at hc
      simp only [List.head?_cons] at hc
      injection hc with hc
      subst hc
      simpa using hx

theorem dropTrailWS_getLast (l : PyStr) :
    ∀ c, (dropTrailWS l).getLast? = some c → isWS c = false := by
  induction l with
  | nil => intro c hc; simp [dropTrailWS] at hc
  | cons x t ih =>
    intro c hc
    simp only [dropTrailWS] at hc
    by_cases hcond : (dropTrailWS t).isEmpty && isWS x
    · rw [if_pos hcond] at hc
      simp at hc
    · rw [if_neg hcond] at hc
      cases hr : dropTrailWS t with
      | nil =>
        rw [hr] at hc hcond
        simp only [List.getLast?_singleton] at hc
        injection hc with hc
        subst hc
        simpa using hcond
      | cons y r' =>
        rw [hr] at hc
        rw [List.getLast?_cons_cons] at hc
        rw [← hr] at hc
        exact ih c hc

theorem head?_of_prefix {s l : PyStr} (h : s <+: l) {c : Char}
    (hc : s.head? = some c) : l.head? = some c := by
  obtain ⟨t, rfl⟩ := h
  cases s with
  | nil => simp at hc
  | cons x s' =>
    simp only [List.head?_cons] at hc ⊢
    exact hc

theorem wsCollapsed_strip (l : PyStr) (h1 : wsOnlySpace l = true)
    (h2 : noDoubleSpace l = true) : wsCollapsed (pyStrip l) = true := by
  have hsub : (pyStrip l).Sublist l := (pyStrip_infixOf l).sublist
  have hw : wsOnlySpace (pyStrip l) = true := wsOnly_sublist hsub h1
  have hn : noDoubleSpace (pyStrip l) = true := by
    have hdw : noDoubleSpace (l.dropWhile isWS) = true :=
      noDouble_of_suffixOf (List.dropWhile_suffix isWS) h2
    exact noDouble_of_prefixOf (dropTrailWS_prefixOf _) hdw
  have hh : ∀ c, (pyStrip l).head? = some c → isWS c = false := by
    intro c hc
    have hc2 := head?_of_prefix (dropTrailWS_prefixOf (l.dropWhile isWS)) hc
    exact dropWhile_head_false isWS l c hc2
  have hg : ∀ c, (pyStrip l).getLast? = some c → isWS c = false :=
    fun c hc => dropTrailWS_getLast _ c hc
  simp only [wsCollapsed, Bool.and_eq_true]
  refine ⟨⟨⟨hw, hn⟩, ?_⟩, ?_⟩
  · cases hh' : (pyStrip l).head? with
    | none => rfl
    | some c => simp [hh c hh']
  · cases hg' : (pyStrip l).getLast? with
    | none => rfl
    | some c => simp [hg c hg']

theorem subDCEnd_prefixOf (l : PyStr) : subDCEnd l <+: l := by
  induction l with
  | nil => simp [subDCEnd]
  | cons c rest ih =>
    simp only [subDCEnd]
    by_cases h : isDCEnd (c :: rest) = true
    · rw [if_pos h]
      exact List.nil_prefix
    · rw [if_neg h]
      exact (List.cons_prefix_cons).2 ⟨rfl, ih⟩

theorem truncCut_collapsed (l : PyStr) (h : wsCollapsed l = true) :
    wsCollapsed (truncCut l) = true := by
  have h' := h
  simp only [wsCollapsed, Bool.and_eq_true] at h'
  unfold truncCut
  split
  · rename_i k hk
    exact wsCollapsed_strip _ (wsOnly_sublist (List.take_sublist k l) h'.1.1.1)
      (noDouble_of_prefixOf (List.take_prefix k l) h'.1.1.2)
  · exact h

theorem cleanFinal_collapsed (x : PyStr) : wsCollapsed (cleanFinal x) = true := by
  have h2 : wsCollapsed (pyStrip (subWS x)) = true :=
    wsCollapsed_strip _ (subWSAux_wsOnly x false) (subWSAux_noDouble x false)
  have h2' := h2
  simp only [wsCollapsed, Bool.and_eq_true] at h2'
  have h3 : wsCollapsed (pyStrip (subDCEnd (pyStrip (subWS x)))) = true := by
    apply wsCollapsed_strip
    · exact wsOnly_sublist (subDCEnd_prefixOf _).sublist h2'.1.1.1
    · exact noDouble_of_prefixOf (subDCEnd_prefixOf _) h2'.1.1.2
  unfold cleanFinal
  split
  · exact truncCut_collapsed _ h3
  · exact h3

/-- Claim C6 (corrected): address cleanup always returns a
whitespace-normal string — all whitespace collapsed to single interior
spaces, no boundary whitespace.  When no address-shaped pattern matches,
each boilerplate pattern's `re.sub` is applied once in order, deleting the
non-overlapping occurrences found in one left-to-right scan; a deletion can
splice together a new boilerplate phrase that only a second pass would
remove, so cleanup is NOT idempotent and does not remove all instances in
general (see the counterexample). -/
theorem C6_cleanup_normalized (s : PyStr) : wsCollapsed (clean_endereco s) = true := by
  unfold clean_endereco
  split
  · rfl
  · exact cleanFinal_collapsed _

/-- Counterexample to C6 as stated: deleting `Número do imóvel: 123 ` from
`c6Input` splices `desc` and `onto de blah` into `desconto de blah`, which
a second cleanup pass reduces to `blah` — applying cleanup twice differs
from applying it once, and the first pass left a boilerplate phrase
behind. -/
theorem C6_counterexample :
    clean_endereco c6Input = "desconto de blah".data ∧
    clean_endereco (clean_endereco c6Input) = "blah".data ∧
    clean_endereco (clean_endereco c6Input) ≠ clean_endereco c6Input := by
  refine ⟨by decide, by decide, by decide⟩
